import Mathlib

/-!
# Channel multiplexer of the audio server (`src/channel.cpp`, `src/audiocompr.h`)

A shallow embedding of `CChannelSet`, `CChannel` and `CSampleOffsetEst`.

* Every method is a pure function from the object state (and its arguments) to
  the new state and the returned value.  The mutexes are not modelled: each
  method body is one atomic step, which is what the locks provide.
* `int` is `Int`.  The counters that only count down while positive stay in
  the 32-bit range by themselves; the accumulated time stamp index of the
  drift estimator grows without a reset, so its arithmetic goes through
  `wrapInt`, the 32-bit two's complement wrap-around of the compiled program.
  `unsigned char` is a `Nat` reduced modulo 256, `double` is `ℚ` (exact
  arithmetic), a division by zero yields `none`.
* The jitter buffer, the conversion buffer, the codec bodies, the host address
  and the wall clock are not part of `src/`; they are the fields of `Ext`.
  The constants of `global.h` are the fields of `Config`.
-/

namespace Jamulus

/-! ## Constants and external collaborators -/

/-- Constants of `global.h` / `channel.h`, which are used but not defined in the
two source files. -/
structure Config where
  MAX_NUM_CHANNELS : Nat
  INVALID_CHANNEL_ID : Int
  CON_TIME_OUT_CNT_MAX : Int
  BLOCK_SIZE_SAMPLES : Nat
  DEF_NET_BUF_SIZE_NUM_BL : Int
  NUM_BL_TIME_STAMPS : Int
  INVALID_TIME_STAMP_IDX : Int
  VEC_LEN_SAM_OFFS_EST : Nat
  SAMPLE_RATE : Int

/-- Modelled from the spec: the constant `_MAXBYTE` is not defined in `src/`; the
spec says the wrap compensation adds 256, which is `_MAXBYTE + 1`. -/
def _MAXBYTE : Int := 255

/-- The classes whose bodies are outside `src/`: host address (`CHostAddress`,
with its `operator==` and default constructor), jitter buffer (`SockBuf`),
conversion buffer (`ConvBuf`), codec (`CAudioCompression`; `codecInit` is
`Init (len, CT_IMAADPCM)` and returns the compressed-frame size) and the
reference clock (`RefTime.elapsed ()`, as a function of the start instant and
the current instant, both in milliseconds).  Each method takes the object
state first and returns the new state last. -/
structure Ext where
  CHostAddress : Type
  addrDecEq : DecidableEq CHostAddress
  addrDefault : CHostAddress
  SockBuf : Type
  sockNew : SockBuf
  sockInit : SockBuf → Int → Int → SockBuf
  sockPut : SockBuf → List ℚ → Bool × SockBuf
  sockGet : SockBuf → List ℚ → Bool × List ℚ × SockBuf
  ConvBuf : Type
  convNew : ConvBuf
  convInit : ConvBuf → Int → ConvBuf
  convPut : ConvBuf → List Int → Bool × ConvBuf
  convGet : ConvBuf → List Int × ConvBuf
  AudioCompression : Type
  codecNew : AudioCompression
  codecInit : AudioCompression → Int → Int × AudioCompression
  codecEncode : AudioCompression → List Int → List Nat × AudioCompression
  codecDecode : AudioCompression → List Nat → List Int × AudioCompression
  elapsed : Int → Int → Int

instance instDecEqAddr (E : Ext) : DecidableEq E.CHostAddress := E.addrDecEq

/-- First argument of `PostWinMessage`. -/
inductive EMsgKind where
  | MS_JIT_BUF_PUT
  | MS_JIT_BUF_GET
deriving DecidableEq, Repr

/-- Second argument of `PostWinMessage`. -/
inductive ELedColour where
  | MUL_COL_LED_GREEN
  | MUL_COL_LED_RED
deriving DecidableEq, Repr

/-- One call of `PostWinMessage (kind, colour, channel)`. -/
structure WinMessage where
  kind : EMsgKind
  colour : ELedColour
  iChanID : Int
deriving DecidableEq, Repr

/-! ## CSampleOffsetEst -/

/-- Members of `CSampleOffsetEst`.  `RefTime` holds the instant of the last
`RefTime.start ()`; `dSamRateEst` is `none` after a division by zero;
`iAccTiStVal` and the entries of `veciTiStIdx` are 32-bit `int`s, kept in range
by `wrapInt` wherever `AddTimeStampIdx` computes them. -/
structure CSampleOffsetEst where
  dSamRateEst : Option ℚ
  veciTimeElapsed : List Int
  veciTiStIdx : List Int
  RefTime : Int
  iAccTiStVal : Int
  iInitCnt : Int
deriving DecidableEq

/-- `CSampleOffsetEst::Init` (channel.cpp 351-370), called at the instant `now`. -/
def CSampleOffsetEst.Init (cfg : Config) (now : Int) : CSampleOffsetEst :=
  { dSamRateEst := some (cfg.SAMPLE_RATE : ℚ)
    veciTimeElapsed := List.replicate cfg.VEC_LEN_SAM_OFFS_EST 0
    veciTiStIdx := List.replicate cfg.VEC_LEN_SAM_OFFS_EST 0
    RefTime := now
    iAccTiStVal := 0
    iInitCnt := (cfg.VEC_LEN_SAM_OFFS_EST : Int) + 1 }

/-- The value of a 32-bit `int` expression whose exact value is `x`: reduced
into `[-2^31, 2^31)` by two's complement wrap-around. -/
def wrapInt (x : Int) : Int :=
  (x + 2147483648) % 4294967296 - 2147483648

/-- The FIFO shift `for (i = 1; i < n; i++) v[i - 1] = v[i];` -/
def fifoShift (n : Nat) (v : List Int) : List Int :=
  (List.range (n - 1)).foldl (fun w k => w.set k (w.getD (k + 1) 0)) v

/-- Double division: `none` when the divisor is zero. -/
def ddiv (a b : ℚ) : Option ℚ :=
  if b = 0 then none else some (a / b)

/-- `CSampleOffsetEst::AddTimeStampIdx` (channel.cpp 372-445), called at the
instant `now`. -/
def CSampleOffsetEst.AddTimeStampIdx (cfg : Config) (E : Ext) (self : CSampleOffsetEst)
    (iTimeStampIdx : Int) (now : Int) : CSampleOffsetEst :=
  let n := cfg.VEC_LEN_SAM_OFFS_EST
  let iLastIdx := n - 1
  -- take care of wrap of the time stamp index (byte wrap)
  let iAccTiStVal :=
    if iTimeStampIdx < wrapInt (self.veciTiStIdx.getD iLastIdx 0 - self.iAccTiStVal) then
      wrapInt (self.iAccTiStVal + (_MAXBYTE + 1))
    else self.iAccTiStVal
  -- add new data pair to the FIFO
  let veciTimeElapsed := (fifoShift n self.veciTimeElapsed).set iLastIdx (E.elapsed self.RefTime now)
  let veciTiStIdx :=
    (fifoShift n self.veciTiStIdx).set iLastIdx (wrapInt (iAccTiStVal + iTimeStampIdx))
  -- first, calculate averages
  let dTimeAv : ℚ :=
    ((List.range n).foldl (fun a i => a + ((veciTimeElapsed.getD i 0 : Int) : ℚ)) 0) / (n : ℚ)
  let dTiStAv : ℚ :=
    ((List.range n).foldl (fun a i => a + ((veciTiStIdx.getD i 0 : Int) : ℚ)) 0) / (n : ℚ)
  -- calculate gradient
  let dNom : ℚ := (List.range n).foldl
    (fun a i => a + (((veciTimeElapsed.getD i 0 : Int) : ℚ) - dTimeAv)
                  * (((veciTiStIdx.getD i 0 : Int) : ℚ) - dTiStAv)) 0
  let dDenom : ℚ := (List.range n).foldl
    (fun a i => a + (((veciTimeElapsed.getD i 0 : Int) : ℚ) - dTimeAv)
                  * (((veciTimeElapsed.getD i 0 : Int) : ℚ) - dTimeAv)) 0
  -- final sample rate offset estimation calculation
  if 0 < self.iInitCnt then
    { self with
      iAccTiStVal := iAccTiStVal
      veciTimeElapsed := veciTimeElapsed
      veciTiStIdx := veciTiStIdx
      iInitCnt := self.iInitCnt - 1 }
  else
    { self with
      iAccTiStVal := iAccTiStVal
      veciTimeElapsed := veciTimeElapsed
      veciTiStIdx := veciTiStIdx
      dSamRateEst := (ddiv dNom dDenom).map
        (fun q => q * (cfg.NUM_BL_TIME_STAMPS : ℚ) * (cfg.BLOCK_SIZE_SAMPLES : ℚ) * 1000) }

/-! ## CChannel -/

/-- Members of `CChannel`. -/
structure CChannel (E : Ext) where
  InetAddr : E.CHostAddress
  iConTimeOut : Int
  iTimeStampActCnt : Int
  byTimeStampIdxCnt : Nat
  iAudComprSize : Int
  SockBuf : E.SockBuf
  ConvBuf : E.ConvBuf
  AudioCompression : E.AudioCompression
  vecdResOutData : List ℚ
  SampleOffsetEst : CSampleOffsetEst

/-- `CChannel::SetSockBufSize` (channel.cpp 214-222). -/
def CChannel.SetSockBufSize {E : Ext} (self : CChannel E) (iNewBlockSize iNumBlocks : Int) :
    CChannel E :=
  { self with SockBuf := E.sockInit self.SockBuf iNewBlockSize iNumBlocks }

/-- `CChannel::CChannel` (channel.cpp 189-212), run at the instant `now`. -/
def CChannel.new (cfg : Config) (E : Ext) (now : Int) : CChannel E :=
  let c := E.codecInit E.codecNew (cfg.BLOCK_SIZE_SAMPLES : Int)
  { InetAddr := E.addrDefault
    iConTimeOut := 0
    iTimeStampActCnt := cfg.NUM_BL_TIME_STAMPS
    byTimeStampIdxCnt := 0
    iAudComprSize := c.1
    SockBuf := E.sockInit E.sockNew (cfg.BLOCK_SIZE_SAMPLES : Int) cfg.DEF_NET_BUF_SIZE_NUM_BL
    ConvBuf := E.convInit E.convNew (cfg.BLOCK_SIZE_SAMPLES : Int)
    AudioCompression := c.2
    vecdResOutData := []
    SampleOffsetEst := CSampleOffsetEst.Init cfg now }

/-- Modelled from the spec: `CChannel::IsConnected` is declared in `channel.h`,
which is not in `src/`; the spec says a channel is Connected exactly when its
timeout counter is above 0. -/
def CChannel.IsConnected {E : Ext} (self : CChannel E) : Bool :=
  decide (0 < self.iConTimeOut)

/-- Modelled from the spec: `CChannel::SetAddress` is declared in `channel.h`,
which is not in `src/`; the spec says it binds the address to the slot. -/
def CChannel.SetAddress {E : Ext} (self : CChannel E) (NAddr : E.CHostAddress) : CChannel E :=
  { self with InetAddr := NAddr }

/-- `CChannel::GetAddress` (channel.cpp 224-236): the returned flag and the
value written to `RetAddr`. -/
def CChannel.GetAddress {E : Ext} (self : CChannel E) : Bool × E.CHostAddress :=
  if self.IsConnected then (true, self.InetAddr) else (false, E.addrDefault)

/-- `CChannel::PutData` (channel.cpp 238-283), called at the instant `now`:
the returned flag and the new channel state. -/
def CChannel.PutData (cfg : Config) {E : Ext} (self : CChannel E) (vecbyData : List Nat)
    (iNumBytes : Int) (now : Int) : Bool × CChannel E :=
  if iNumBytes = self.iAudComprSize then
    -- decompress audio
    let d := E.codecDecode self.AudioCompression vecbyData
    let vecsDecomprAudio := d.1
    let vecdResOutData : List ℚ :=
      (List.range cfg.BLOCK_SIZE_SAMPLES).map (fun i => ((vecsDecomprAudio.getD i 0 : Int) : ℚ))
    let p := E.sockPut self.SockBuf vecdResOutData
    -- reset time-out counter
    (p.1, { self with
              AudioCompression := d.2
              vecdResOutData := vecdResOutData
              SockBuf := p.2
              iConTimeOut := cfg.CON_TIME_OUT_CNT_MAX })
  else if iNumBytes = 1 then
    -- time stamp packet
    (true, { self with
               SampleOffsetEst :=
                 self.SampleOffsetEst.AddTimeStampIdx cfg E ((vecbyData.getD 0 0 % 256 : Nat) : Int) now })
  else
    (false, self)

/-- `CChannel::GetData` (channel.cpp 285-308), called at the instant `now`:
the returned flag, the contents of `vecdData` afterwards and the new state. -/
def CChannel.GetData (cfg : Config) {E : Ext} (self : CChannel E) (vecdData : List ℚ)
    (now : Int) : Bool × List ℚ × CChannel E :=
  let g := E.sockGet self.SockBuf vecdData
  let bGetOK := g.1
  let self1 := { self with SockBuf := g.2.2 }
  if !bGetOK then
    if 0 < self1.iConTimeOut then
      let self2 := { self1 with iConTimeOut := self1.iConTimeOut - 1 }
      if self2.iConTimeOut = 0 then
        (bGetOK, g.2.1, { self2 with SampleOffsetEst := CSampleOffsetEst.Init cfg now })
      else
        (bGetOK, g.2.1, self2)
    else
      (bGetOK, g.2.1, self1)
  else
    (bGetOK, g.2.1, self1)

/-- `CChannel::PrepSendPacket` (channel.cpp 310-326). -/
def CChannel.PrepSendPacket {E : Ext} (self : CChannel E) (vecsNPacket : List Int) :
    List Nat × CChannel E :=
  let p := E.convPut self.ConvBuf vecsNPacket
  if p.1 then
    let g := E.convGet p.2
    let e := E.codecEncode self.AudioCompression g.1
    (e.1, { self with ConvBuf := g.2, AudioCompression := e.2 })
  else
    ([], { self with ConvBuf := p.2 })

/-- `CChannel::GetTimeStampIdx` (channel.cpp 328-345). -/
def CChannel.GetTimeStampIdx (cfg : Config) {E : Ext} (self : CChannel E) : Int × CChannel E :=
  if 0 < self.iTimeStampActCnt then
    (cfg.INVALID_TIME_STAMP_IDX, { self with iTimeStampActCnt := self.iTimeStampActCnt - 1 })
  else
    let b := (self.byTimeStampIdxCnt + 1) % 256
    ((b : Int), { self with iTimeStampActCnt := cfg.NUM_BL_TIME_STAMPS - 1
                            byTimeStampIdxCnt := b })

/-! ## CChannelSet -/

/-- The member `vecChannels[MAX_NUM_CHANNELS]` of `CChannelSet`; only the
indices below `MAX_NUM_CHANNELS` are ever read or written. -/
abbrev CChannelSet (E : Ext) := Nat → CChannel E

/-- The table after the constructors of all channels have run, slot `i` at the
instant `clock i`. -/
def CChannelSet.new (cfg : Config) (E : Ext) (clock : Nat → Int) : CChannelSet E :=
  fun i => CChannel.new cfg E (clock i)

/-- The loop of `GetFreeChan`, `fuel` iterations from index `i` on. -/
def GetFreeChanLoop (cfg : Config) {E : Ext} (vecChannels : CChannelSet E) : Nat → Nat → Int
  | 0, _ => cfg.INVALID_CHANNEL_ID
  | fuel + 1, i =>
    if !(vecChannels i).IsConnected then (i : Int)
    else GetFreeChanLoop cfg vecChannels fuel (i + 1)

/-- `CChannelSet::GetFreeChan` (channel.cpp 31-42). -/
def GetFreeChan (cfg : Config) {E : Ext} (vecChannels : CChannelSet E) : Int :=
  GetFreeChanLoop cfg vecChannels cfg.MAX_NUM_CHANNELS 0

/-- The loop of `CheckAddr`, `fuel` iterations from index `i` on. -/
def CheckAddrLoop (cfg : Config) {E : Ext} (vecChannels : CChannelSet E)
    (Addr : E.CHostAddress) : Nat → Nat → Int
  | 0, _ => cfg.INVALID_CHANNEL_ID
  | fuel + 1, i =>
    let r := (vecChannels i).GetAddress
    if r.1 && decide (r.2 = Addr) then (i : Int)
    else CheckAddrLoop cfg vecChannels Addr fuel (i + 1)

/-- `CChannelSet::CheckAddr` (channel.cpp 44-61). -/
def CheckAddr (cfg : Config) {E : Ext} (vecChannels : CChannelSet E)
    (Addr : E.CHostAddress) : Int :=
  CheckAddrLoop cfg vecChannels Addr cfg.MAX_NUM_CHANNELS 0

/-- What `CChannelSet::PutData` leaves behind: the table, the status messages
posted, and the returned flag (`true` is "error"). -/
structure PutDataResult (E : Ext) where
  vecChannels : CChannelSet E
  posted : List WinMessage
  ret : Bool

/-- `CChannelSet::PutData` (channel.cpp 63-107), called at the instant `now`. -/
def PutData (cfg : Config) {E : Ext} (vecChannels : CChannelSet E) (vecbyRecBuf : List Nat)
    (iNumBytesRead : Int) (HostAdr : E.CHostAddress) (now : Int) : PutDataResult E :=
  -- check address
  let iCurChanID0 := CheckAddr cfg vecChannels HostAdr
  let r : CChannelSet E × Int × Bool :=
    if iCurChanID0 = cfg.INVALID_CHANNEL_ID then
      -- a new client is calling, look for free channel
      let iCurChanID := GetFreeChan cfg vecChannels
      if iCurChanID ≠ cfg.INVALID_CHANNEL_ID then
        (Function.update vecChannels iCurChanID.toNat
          ((vecChannels iCurChanID.toNat).SetAddress HostAdr), iCurChanID, true)
      else
        (vecChannels, iCurChanID, false)
    else
      (vecChannels, iCurChanID0, true)
  let vec1 := r.1
  let iCurChanID := r.2.1
  let bChanOK := r.2.2
  -- put received data in jitter buffer
  if bChanOK then
    let p := (vec1 iCurChanID.toNat).PutData cfg vecbyRecBuf iNumBytesRead now
    { vecChannels := Function.update vec1 iCurChanID.toNat p.2
      posted := [⟨.MS_JIT_BUF_PUT,
                  if p.1 then .MUL_COL_LED_GREEN else .MUL_COL_LED_RED, iCurChanID⟩]
      ret := !bChanOK }
  else
    { vecChannels := vec1, posted := [], ret := !bChanOK }

/-- The loop variables of `GetBlockAllConC`. -/
structure GetBlockState (E : Ext) where
  vecChannels : CChannelSet E
  vecdData : List ℚ
  vecChanID : List Int
  vecvecdData : List (List ℚ)
  posted : List WinMessage

/-- One iteration of the loop of `GetBlockAllConC`, for slot `i` at the instant
`now`. -/
def GetBlockStep (cfg : Config) {E : Ext} (now : Int) (s : GetBlockState E) (i : Nat) :
    GetBlockState E :=
  let g := (s.vecChannels i).GetData cfg s.vecdData now
  let bGetOK := g.1
  let vecChannels := Function.update s.vecChannels i g.2.2
  if (vecChannels i).IsConnected then
    { vecChannels := vecChannels
      vecdData := g.2.1
      vecChanID := s.vecChanID ++ [(i : Int)]
      vecvecdData := s.vecvecdData ++ [g.2.1]
      posted := s.posted ++ [⟨.MS_JIT_BUF_GET,
                  if bGetOK then .MUL_COL_LED_GREEN else .MUL_COL_LED_RED, (i : Int)⟩] }
  else
    { s with vecChannels := vecChannels, vecdData := g.2.1 }

/-- `CChannelSet::GetBlockAllConC` (channel.cpp 109-148); slot `i` is served at
the instant `clock i`. -/
def GetBlockAllConC (cfg : Config) {E : Ext} (vecChannels : CChannelSet E)
    (clock : Nat → Int) : GetBlockState E :=
  (List.range cfg.MAX_NUM_CHANNELS).foldl (fun s i => GetBlockStep cfg (clock i) s i)
    { vecChannels := vecChannels
      vecdData := List.replicate cfg.BLOCK_SIZE_SAMPLES 0
      vecChanID := []
      vecvecdData := []
      posted := [] }

/-- `CChannelSet::SetSockBufSize` (channel.cpp 171-183). -/
def SetSockBufSize (cfg : Config) {E : Ext} (vecChannels : CChannelSet E)
    (iNewBlockSize iNumBlocks : Int) : CChannelSet E :=
  (List.range cfg.MAX_NUM_CHANNELS).foldl
    (fun v i => Function.update v i ((v i).SetSockBufSize iNewBlockSize iNumBlocks)) vecChannels

/-! ## Sequences of calls -/

/-- One inbound packet: payload, sender address, instant of arrival. -/
abbrev Packet (E : Ext) := List Nat × E.CHostAddress × Int

/-- `CChannelSet::PutData` called once per packet of the list, in order, each
time with byte count `n`: the final table and the flags returned. -/
def PutDataSeq (cfg : Config) {E : Ext} (n : Int) :
    CChannelSet E → List (Packet E) → CChannelSet E × List Bool
  | v, [] => (v, [])
  | v, p :: ps =>
    let r := PutData cfg v p.1 n p.2.1 p.2.2
    let rest := PutDataSeq cfg n r.vecChannels ps
    (rest.1, r.ret :: rest.2)

/-- `CChannel::GetData` called `k` times in a row with no other call in
between, call number `j` (from 0) at the instant `clock j` with buffer `d`. -/
def GetDataN (cfg : Config) {E : Ext} (clock : Nat → Int) (d : List ℚ) :
    Nat → CChannel E → CChannel E
  | 0, c => c
  | k + 1, c => ((GetDataN cfg clock d k c).GetData cfg d (clock k)).2.2

/-! ## Reachable tables and a concrete instance -/

/-- The tables that can arise from the freshly constructed one through the three
mutating entry points of `CChannelSet`. -/
inductive Reachable (cfg : Config) (E : Ext) : CChannelSet E → Prop where
  | init (clock : Nat → Int) : Reachable cfg E (CChannelSet.new cfg E clock)
  | putData {v : CChannelSet E} (vecbyRecBuf : List Nat) (iNumBytesRead : Int)
      (HostAdr : E.CHostAddress) (now : Int) :
      Reachable cfg E v →
      Reachable cfg E (PutData cfg v vecbyRecBuf iNumBytesRead HostAdr now).vecChannels
  | getBlock {v : CChannelSet E} (clock : Nat → Int) :
      Reachable cfg E v → Reachable cfg E (GetBlockAllConC cfg v clock).vecChannels
  | setSockBuf {v : CChannelSet E} (iNewBlockSize iNumBlocks : Int) :
      Reachable cfg E v → Reachable cfg E (SetSockBufSize cfg v iNewBlockSize iNumBlocks)

/-- No two distinct connected slots hold equal addresses. -/
def UniqueAddr (cfg : Config) {E : Ext} (v : CChannelSet E) : Prop :=
  ∀ i j, i < cfg.MAX_NUM_CHANNELS → j < cfg.MAX_NUM_CHANNELS → i ≠ j →
    (v i).IsConnected = true → (v j).IsConnected = true → (v i).InetAddr ≠ (v j).InetAddr

/-- The sentinel `INVALID_CHANNEL_ID` is not the index of a slot. -/
def SentinelOK (cfg : Config) : Prop :=
  cfg.INVALID_CHANNEL_ID < 0 ∨ (cfg.MAX_NUM_CHANNELS : Int) ≤ cfg.INVALID_CHANNEL_ID

instance instDecSentinelOK (cfg : Config) : Decidable (SentinelOK cfg) := by
  unfold SentinelOK; infer_instance

/-- A small configuration: two slots, time-out after two missed blocks. -/
def smallCfg : Config :=
  { MAX_NUM_CHANNELS := 2
    INVALID_CHANNEL_ID := 3
    CON_TIME_OUT_CNT_MAX := 2
    BLOCK_SIZE_SAMPLES := 4
    DEF_NET_BUF_SIZE_NUM_BL := 2
    NUM_BL_TIME_STAMPS := 3
    INVALID_TIME_STAMP_IDX := -1
    VEC_LEN_SAM_OFFS_EST := 3
    SAMPLE_RATE := 24000 }

/-- A concrete set of collaborators: addresses are numbers, the jitter buffer
is a bounded FIFO of frames (capacity, contents), the conversion buffer hands
every block through, the codec copies bytes to samples and back with a frame
size of half the block length plus three, the clock counts milliseconds. -/
def fifoExt : Ext :=
  { CHostAddress := Nat
    addrDecEq := inferInstance
    addrDefault := 0
    SockBuf := Int × List (List ℚ)
    sockNew := (0, [])
    sockInit := fun _ _ iNumBlocks => (iNumBlocks, [])
    sockPut := fun b f =>
      if (b.2.length : Int) < b.1 then (true, (b.1, b.2 ++ [f])) else (false, b)
    sockGet := fun b v =>
      match b.2 with
      | [] => (false, v, b)
      | f :: r => (true, f, (b.1, r))
    ConvBuf := List Int
    convNew := []
    convInit := fun _ _ => []
    convPut := fun _ x => (true, x)
    convGet := fun b => (b, [])
    AudioCompression := Unit
    codecNew := ()
    codecInit := fun c n => (n / 2 + 3, c)
    codecEncode := fun c x => (x.map Int.toNat, c)
    codecDecode := fun c x => (x.map Int.ofNat, c)
    elapsed := fun start now => now - start }

/-- The freshly constructed table of the small configuration. -/
def freshTable : CChannelSet fifoExt :=
  CChannelSet.new smallCfg fifoExt (fun _ => 0)

/-- The table after one audio frame (five bytes) from address 7: slot 0 is
connected and bound to 7. -/
def oneClient : CChannelSet fifoExt :=
  (PutData smallCfg freshTable [0, 0, 0, 0, 0] 5 (7 : Nat) 0).vecChannels

/-- The table after audio frames from addresses 7 and 8: both slots connected. -/
def twoClients : CChannelSet fifoExt :=
  (PutData smallCfg oneClient [0, 0, 0, 0, 0] 5 (8 : Nat) 0).vecChannels

/-- Every slot of `w` stores the address it stores in `v`, and is connected
only if it is connected in `v`. -/
def Shrinks {E : Ext} (v w : CChannelSet E) : Prop :=
  ∀ i, (w i).InetAddr = (v i).InetAddr ∧ ((w i).IsConnected = true → (v i).IsConnected = true)

/-- Slot 0 of `oneClient` after its only frame has been pulled: connected with
time-out 2 and an empty jitter buffer. -/
def drainedClient : CChannel fifoExt :=
  ((oneClient 0).GetData smallCfg [] 0).2.2

/-- The index `i` if `P i` holds for some `i` among `fuel` indices from `i` on
(the first such), else `inv`: the common shape of both scanning loops. -/
def firstIdx (inv : Int) (P : Nat → Bool) : Nat → Nat → Int
  | 0, _ => inv
  | fuel + 1, i => if P i then (i : Int) else firstIdx inv P fuel (i + 1)

/-! ## Definitions for the audio pass, the time stamp schedule and the estimator -/

/-- The contents of the local `vecdData` of `GetBlockAllConC` when the loop
reaches slot `i`: zeros at first, then whatever `GetData` of the previous slot
left in it. -/
def GetBlockBuf (cfg : Config) {E : Ext} (v : CChannelSet E) (clock : Nat → Int) :
    Nat → List ℚ
  | 0 => List.replicate cfg.BLOCK_SIZE_SAMPLES 0
  | i + 1 => ((v i).GetData cfg (GetBlockBuf cfg v clock i) (clock i)).2.1

/-- The `GetData` call that `GetBlockAllConC` makes on slot `i`: returned flag,
frame pulled, new channel state. -/
def GetBlockSlot (cfg : Config) {E : Ext} (v : CChannelSet E) (clock : Nat → Int) (i : Nat) :
    Bool × List ℚ × CChannel E :=
  (v i).GetData cfg (GetBlockBuf cfg v clock i) (clock i)

/-- The channel after `k` calls of `CChannel::GetTimeStampIdx`. -/
def GetTimeStampIdxState (cfg : Config) {E : Ext} (c : CChannel E) : Nat → CChannel E
  | 0 => c
  | k + 1 => ((GetTimeStampIdxState cfg c k).GetTimeStampIdx cfg).2

/-- The value returned by call number `k` (counted from 1) of
`CChannel::GetTimeStampIdx`. -/
def GetTimeStampIdxRet (cfg : Config) {E : Ext} (c : CChannel E) (k : Nat) : Int :=
  ((GetTimeStampIdxState cfg c (k - 1)).GetTimeStampIdx cfg).1

/-- `CSampleOffsetEst::AddTimeStampIdx` called once per pair (raw index, instant)
of the list, in order. -/
def AddTimeStampIdxSeq (cfg : Config) (E : Ext) (s : CSampleOffsetEst) (xs : List (Int × Int)) :
    CSampleOffsetEst :=
  xs.foldl (fun t x => t.AddTimeStampIdx cfg E x.1 x.2) s

/-- The element `veciTiStIdx[iLastIdx]`, the newest accumulated index. -/
def CSampleOffsetEst.tail (cfg : Config) (s : CSampleOffsetEst) : Int :=
  s.veciTiStIdx.getD (cfg.VEC_LEN_SAM_OFFS_EST - 1) 0

/-- The regression of `AddTimeStampIdx` (channel.cpp 402-429) on a window:
means, numerator and denominator of the gradient. -/
def regression (n : Nat) (veciTimeElapsed veciTiStIdx : List Int) : ℚ × ℚ :=
  let dTimeAv : ℚ :=
    ((List.range n).foldl (fun a i => a + ((veciTimeElapsed.getD i 0 : Int) : ℚ)) 0) / (n : ℚ)
  let dTiStAv : ℚ :=
    ((List.range n).foldl (fun a i => a + ((veciTiStIdx.getD i 0 : Int) : ℚ)) 0) / (n : ℚ)
  let dNom : ℚ := (List.range n).foldl
    (fun a i => a + (((veciTimeElapsed.getD i 0 : Int) : ℚ) - dTimeAv)
                  * (((veciTiStIdx.getD i 0 : Int) : ℚ) - dTiStAv)) 0
  let dDenom : ℚ := (List.range n).foldl
    (fun a i => a + (((veciTimeElapsed.getD i 0 : Int) : ℚ) - dTimeAv)
                  * (((veciTimeElapsed.getD i 0 : Int) : ℚ) - dTimeAv)) 0
  (dNom, dDenom)

/-- The value `dNom / dDenom * NUM_BL_TIME_STAMPS * BLOCK_SIZE_SAMPLES * 1000`
(channel.cpp 429) for a window. -/
def regressionEst (cfg : Config) (veciTimeElapsed veciTiStIdx : List Int) : Option ℚ :=
  (ddiv (regression cfg.VEC_LEN_SAM_OFFS_EST veciTimeElapsed veciTiStIdx).1
        (regression cfg.VEC_LEN_SAM_OFFS_EST veciTimeElapsed veciTiStIdx).2).map
    (fun q => q * (cfg.NUM_BL_TIME_STAMPS : ℚ) * (cfg.BLOCK_SIZE_SAMPLES : ℚ) * 1000)

/-- The channel states that can arise from the constructor through the five
mutating methods of `CChannel`. -/
inductive ChannelReachable (cfg : Config) (E : Ext) : CChannel E → Prop where
  | new (now : Int) : ChannelReachable cfg E (CChannel.new cfg E now)
  | putData {c : CChannel E} (vecbyData : List Nat) (iNumBytes now : Int) :
      ChannelReachable cfg E c →
      ChannelReachable cfg E (c.PutData cfg vecbyData iNumBytes now).2
  | getData {c : CChannel E} (vecdData : List ℚ) (now : Int) :
      ChannelReachable cfg E c → ChannelReachable cfg E (c.GetData cfg vecdData now).2.2
  | setSockBufSize {c : CChannel E} (iNewBlockSize iNumBlocks : Int) :
      ChannelReachable cfg E c →
      ChannelReachable cfg E (c.SetSockBufSize iNewBlockSize iNumBlocks)
  | prepSendPacket {c : CChannel E} (vecsNPacket : List Int) :
      ChannelReachable cfg E c → ChannelReachable cfg E (c.PrepSendPacket vecsNPacket).2
  | getTimeStampIdx {c : CChannel E} :
      ChannelReachable cfg E c → ChannelReachable cfg E (c.GetTimeStampIdx cfg).2

/-- The estimator of the small configuration after four time stamps at the
instants 10, 20, 30, 40: warm-up counter 0, window not yet used. -/
def warmEst : CSampleOffsetEst :=
  AddTimeStampIdxSeq smallCfg fifoExt (CSampleOffsetEst.Init smallCfg 0)
    [(254, 10), (255, 20), (0, 30), (1, 40)]

/-- The estimator of the small configuration after four time stamps, the last
two both at the instant 30. -/
def stalledEst : CSampleOffsetEst :=
  AddTimeStampIdxSeq smallCfg fifoExt (CSampleOffsetEst.Init smallCfg 0)
    [(254, 10), (255, 20), (0, 30), (1, 30)]

/-- The number of wrap compensations a sequence of raw time stamp values
calls for: the positions at which the value is smaller than its predecessor,
the predecessor of the first value being `prev`. -/
def descents : Int → List Int → Nat
  | _, [] => 0
  | prev, r :: rs => (if r < prev then 1 else 0) + descents r rs

/-- The raw values 1, 0 repeated `k` times, all at the instant 0: every pair
calls for one wrap compensation. -/
def wrapPairs : Nat → List (Int × Int)
  | 0 => []
  | k + 1 => wrapPairs k ++ [(1, 0), (0, 0)]

/-- The first `n` entries of `l` are non-decreasing from index 0 upwards. -/
def NonDecreasing (n : Nat) (l : List Int) : Prop :=
  ∀ i j, i ≤ j → j < n → l.getD i 0 ≤ l.getD j 0

/-! ## CImaAdpcm (audiocompr.h) -/

/-- The table `ima_indx_adjust` (audiocompr.h 35-40). -/
def ima_indx_adjust : List Int :=
  [-1, -1, -1, -1, 2, 4, 6, 8, -1, -1, -1, -1, 2, 4, 6, 8]

/-- The constant `IMA_STEP_SIZE_TAB_LEN` (audiocompr.h 42). -/
def IMA_STEP_SIZE_TAB_LEN : Nat := 89

/-- The table `ima_step_size` (audiocompr.h 43-51). -/
def ima_step_size : List Int :=
  [7, 8, 9, 10, 11, 12, 13, 14, 16, 17, 19, 21, 23, 25, 28, 31, 34, 37, 41, 45,
   50, 55, 60, 66, 73, 80, 88, 97, 107, 118, 130, 143, 157, 173, 190, 209, 230,
   253, 279, 307, 337, 371, 408, 449, 494, 544, 598, 658, 724, 796, 876, 963,
   1060, 1166, 1282, 1411, 1552, 1707, 1878, 2066, 2272, 2499, 2749, 3024, 3327,
   3660, 4026, 4428, 4871, 5358, 5894, 6484, 7132, 7845, 8630, 9493, 10442,
   11487, 12635, 13899, 15289, 16818, 18500, 20350, 22385, 24623, 27086, 29794,
   32767]

/-- `CImaAdpcm::CheckBounds` (audiocompr.h 72-80). -/
def CheckBounds (iData iMin iMax : Int) : Int :=
  if iData > iMax then iMax
  else if iData < iMin then iMin
  else iData

/-! ## Properties of the scanning loops -/

theorem firstIdx_spec (inv : Int) (P : Nat → Bool) (fuel i : Nat) :
    (∃ j, i ≤ j ∧ j < i + fuel ∧ P j = true ∧ (∀ k, i ≤ k → k < j → P k = false) ∧
        firstIdx inv P fuel i = (j : Int)) ∨
    ((∀ k, i ≤ k → k < i + fuel → P k = false) ∧ firstIdx inv P fuel i = inv) := by
  induction fuel generalizing i with
  | zero =>
    right
    exact ⟨fun k h1 h2 => by omega, rfl⟩
  | succ n ih =>
    by_cases hP : P i = true
    · left
      refine ⟨i, le_refl i, by omega, hP, fun k h1 h2 => by omega, ?_⟩
      simp [firstIdx, hP]
    · have hPf : P i = false := by simpa using hP
      rcases ih (i + 1) with ⟨j, h1, h2, h3, h4, h5⟩ | ⟨h1, h2⟩
      · left
        refine ⟨j, by omega, by omega, h3, ?_, ?_⟩
        · intro k hk1 hk2
          by_cases hki : k = i
          · subst hki; exact hPf
          · exact h4 k (by omega) hk2
        · simp [firstIdx, hPf, h5]
      · right
        refine ⟨?_, ?_⟩
        · intro k hk1 hk2
          by_cases hki : k = i
          · subst hki; exact hPf
          · exact h1 k (by omega) (by omega)
        · simp [firstIdx, hPf, h2]

theorem GetFreeChanLoop_eq (cfg : Config) {E : Ext} (v : CChannelSet E) (fuel i : Nat) :
    GetFreeChanLoop cfg v fuel i =
      firstIdx cfg.INVALID_CHANNEL_ID (fun k => !(v k).IsConnected) fuel i := by
  induction fuel generalizing i with
  | zero => rfl
  | succ n ih => simp [GetFreeChanLoop, firstIdx, ih]

theorem CheckAddrLoop_eq (cfg : Config) {E : Ext} (v : CChannelSet E) (A : E.CHostAddress)
    (fuel i : Nat) :
    CheckAddrLoop cfg v A fuel i =
      firstIdx cfg.INVALID_CHANNEL_ID
        (fun k => (v k).IsConnected && decide ((v k).InetAddr = A)) fuel i := by
  induction fuel generalizing i with
  | zero => rfl
  | succ n ih =>
    simp only [CheckAddrLoop, firstIdx, ih, CChannel.GetAddress]
    by_cases hc : (v i).IsConnected = true
    · simp [hc]
    · have hcf : (v i).IsConnected = false := by simpa using hc
      simp [hcf]

/-- What `GetFreeChan` returns: the first free slot, or the sentinel when all
slots are connected. -/
theorem GetFreeChan_cases (cfg : Config) {E : Ext} (v : CChannelSet E) :
    (∃ j, j < cfg.MAX_NUM_CHANNELS ∧ (v j).IsConnected = false ∧
        (∀ k, k < j → (v k).IsConnected = true) ∧ GetFreeChan cfg v = (j : Int)) ∨
    ((∀ k, k < cfg.MAX_NUM_CHANNELS → (v k).IsConnected = true) ∧
        GetFreeChan cfg v = cfg.INVALID_CHANNEL_ID) := by
  unfold GetFreeChan
  rw [GetFreeChanLoop_eq]
  rcases firstIdx_spec cfg.INVALID_CHANNEL_ID (fun k => !(v k).IsConnected)
      cfg.MAX_NUM_CHANNELS 0 with ⟨j, _, h2, h3, h4, h5⟩ | ⟨h1, h2⟩
  · left
    refine ⟨j, by omega, by simpa using h3, ?_, h5⟩
    intro k hk
    have := h4 k (Nat.zero_le k) hk
    simpa using this
  · right
    refine ⟨?_, h2⟩
    intro k hk
    have := h1 k (Nat.zero_le k) (by omega)
    simpa using this

/-- What `CheckAddr` returns: the first connected slot holding the address, or
the sentinel when no connected slot holds it. -/
theorem CheckAddr_cases (cfg : Config) {E : Ext} (v : CChannelSet E) (A : E.CHostAddress) :
    (∃ j, j < cfg.MAX_NUM_CHANNELS ∧ (v j).IsConnected = true ∧ (v j).InetAddr = A ∧
        (∀ k, k < j → ¬ ((v k).IsConnected = true ∧ (v k).InetAddr = A)) ∧
        CheckAddr cfg v A = (j : Int)) ∨
    ((∀ k, k < cfg.MAX_NUM_CHANNELS → ¬ ((v k).IsConnected = true ∧ (v k).InetAddr = A)) ∧
        CheckAddr cfg v A = cfg.INVALID_CHANNEL_ID) := by
  unfold CheckAddr
  rw [CheckAddrLoop_eq]
  rcases firstIdx_spec cfg.INVALID_CHANNEL_ID
      (fun k => (v k).IsConnected && decide ((v k).InetAddr = A))
      cfg.MAX_NUM_CHANNELS 0 with ⟨j, _, h2, h3, h4, h5⟩ | ⟨h1, h2⟩
  · left
    simp only [Bool.and_eq_true, decide_eq_true_eq] at h3
    refine ⟨j, by omega, h3.1, h3.2, ?_, h5⟩
    intro k hk hc
    have := h4 k (Nat.zero_le k) hk
    simp [hc.1, hc.2] at this
  · right
    refine ⟨?_, h2⟩
    intro k hk hc
    have := h1 k (Nat.zero_le k) (by omega)
    simp [hc.1, hc.2] at this

theorem sentinel_ne_index (cfg : Config) (h : SentinelOK cfg) (j : Nat)
    (hj : j < cfg.MAX_NUM_CHANNELS) : (j : Int) ≠ cfg.INVALID_CHANNEL_ID := by
  unfold SentinelOK at h
  omega

theorem new_not_connected (cfg : Config) (E : Ext) (clock : Nat → Int) (i : Nat) :
    (CChannelSet.new cfg E clock i).IsConnected = false := by
  simp [CChannelSet.new, CChannel.new, CChannel.IsConnected]

theorem GetFreeChan_eq (cfg : Config) {E : Ext} (w : CChannelSet E) (i : Nat)
    (hi : i < cfg.MAX_NUM_CHANNELS) (hfree : (w i).IsConnected = false)
    (hbelow : ∀ k, k < i → (w k).IsConnected = true) : GetFreeChan cfg w = (i : Int) := by
  rcases GetFreeChan_cases cfg w with ⟨j, hj, hjf, hjb, hjr⟩ | ⟨hall, _⟩
  · have hij : i = j := by
      rcases Nat.lt_trichotomy i j with h | h | h
      · have := hjb i h; rw [hfree] at this; exact absurd this (by simp)
      · exact h
      · have := hbelow j h; rw [hjf] at this; exact absurd this (by simp)
    rw [hjr, hij]
  · have := hall i hi; rw [hfree] at this; exact absurd this (by simp)

theorem CheckAddr_eq (cfg : Config) {E : Ext} (v : CChannelSet E) (A : E.CHostAddress) (i : Nat)
    (hi : i < cfg.MAX_NUM_CHANNELS) (hc : (v i).IsConnected = true) (ha : (v i).InetAddr = A)
    (hbelow : ∀ k, k < i → ¬ ((v k).IsConnected = true ∧ (v k).InetAddr = A)) :
    CheckAddr cfg v A = (i : Int) := by
  rcases CheckAddr_cases cfg v A with ⟨j, hj, hjc, hja, hjb, hjr⟩ | ⟨hnone, _⟩
  · have hij : i = j := by
      rcases Nat.lt_trichotomy i j with h | h | h
      · exact absurd ⟨hc, ha⟩ (hjb i h)
      · exact h
      · exact absurd ⟨hjc, hja⟩ (hbelow j h)
    rw [hjr, hij]
  · exact absurd ⟨hc, ha⟩ (hnone i hi)

theorem CheckAddr_eq_invalid (cfg : Config) {E : Ext} (v : CChannelSet E) (A : E.CHostAddress)
    (hnone : ∀ i, i < cfg.MAX_NUM_CHANNELS →
      ¬ ((v i).IsConnected = true ∧ (v i).InetAddr = A)) :
    CheckAddr cfg v A = cfg.INVALID_CHANNEL_ID := by
  rcases CheckAddr_cases cfg v A with ⟨j, hj, hjc, hja, _, _⟩ | ⟨_, hr⟩
  · exact absurd ⟨hjc, hja⟩ (hnone j hj)
  · exact hr

/-! ## C2, C3: the two scans -/

/-- C2: `GetFreeChan` returns the smallest index below `MAX_NUM_CHANNELS` whose
slot is not connected; it returns `INVALID_CHANNEL_ID` exactly when every slot
is connected; on the freshly constructed table (with at least one slot) it
returns 0; and when exactly the slots `0..k-1` are connected (`k` below
`MAX_NUM_CHANNELS`) it returns `k`.  The sentinel is assumed not to be a slot
index. -/
theorem GetFreeChan_smallest_free (cfg : Config) (E : Ext) (v : CChannelSet E)
    (hS : SentinelOK cfg) :
    (∀ i, i < cfg.MAX_NUM_CHANNELS → (v i).IsConnected = false →
        (∀ k, k < i → (v k).IsConnected = true) → GetFreeChan cfg v = (i : Int)) ∧
    (GetFreeChan cfg v = cfg.INVALID_CHANNEL_ID ↔
        ∀ i, i < cfg.MAX_NUM_CHANNELS → (v i).IsConnected = true) ∧
    (0 < cfg.MAX_NUM_CHANNELS →
        ∀ clock, GetFreeChan cfg (CChannelSet.new cfg E clock) = 0) ∧
    (∀ k, k < cfg.MAX_NUM_CHANNELS →
        (∀ i, i < cfg.MAX_NUM_CHANNELS → ((v i).IsConnected = true ↔ i < k)) →
        GetFreeChan cfg v = (k : Int)) := by
  have key := fun (w : CChannelSet E) => GetFreeChan_eq cfg w
  refine ⟨key v, ?_, ?_, ?_⟩
  · constructor
    · intro h i hi
      rcases GetFreeChan_cases cfg v with ⟨j, hj, _, _, hjr⟩ | ⟨hall, _⟩
      · exact absurd (hjr.symm.trans h) (sentinel_ne_index cfg hS j hj)
      · exact hall i hi
    · intro hall
      rcases GetFreeChan_cases cfg v with ⟨j, hj, hjf, _, _⟩ | ⟨_, hr⟩
      · have := hall j hj; rw [hjf] at this; exact absurd this (by simp)
      · exact hr
  · intro hpos clock
    have := key (CChannelSet.new cfg E clock) 0 hpos (new_not_connected cfg E clock 0)
      (fun k hk => absurd hk (Nat.not_lt_zero k))
    simpa using this
  · intro k hk hex
    refine key v k hk ?_ (fun i hi => (hex i (by omega)).2 hi)
    have := hex k hk
    cases hc : (v k).IsConnected with
    | false => rfl
    | true => exact absurd (this.1 hc) (Nat.lt_irrefl k)

/-- Witness for C2 on the two-slot configuration and its fresh table. -/
theorem GetFreeChan_smallest_free_witness :
    SentinelOK smallCfg ∧
    GetFreeChan smallCfg (CChannelSet.new smallCfg fifoExt (fun _ => 0)) = 0 :=
  ⟨by decide,
   (GetFreeChan_smallest_free smallCfg fifoExt (CChannelSet.new smallCfg fifoExt (fun _ => 0))
      (by decide)).2.2.1 (by decide) (fun _ => 0)⟩

/-- C3: `CheckAddr` returns the smallest index of a connected slot whose stored
address equals the argument, and `INVALID_CHANNEL_ID` if there is none; it never
returns a disconnected slot, whatever address that slot still stores; and if a
connected slot `i` holds `A` then `CheckAddr B` is not `i` for any `B` other than
`A`.  The sentinel is assumed not to be a slot index. -/
theorem CheckAddr_smallest_match (cfg : Config) (E : Ext) (v : CChannelSet E)
    (A : E.CHostAddress) (hS : SentinelOK cfg) :
    (∀ i, i < cfg.MAX_NUM_CHANNELS → (v i).IsConnected = true → (v i).InetAddr = A →
        (∀ k, k < i → ¬ ((v k).IsConnected = true ∧ (v k).InetAddr = A)) →
        CheckAddr cfg v A = (i : Int)) ∧
    ((∀ i, i < cfg.MAX_NUM_CHANNELS → ¬ ((v i).IsConnected = true ∧ (v i).InetAddr = A)) →
        CheckAddr cfg v A = cfg.INVALID_CHANNEL_ID) ∧
    (∀ i, i < cfg.MAX_NUM_CHANNELS → (v i).IsConnected = false →
        CheckAddr cfg v A ≠ (i : Int)) ∧
    (∀ i B, i < cfg.MAX_NUM_CHANNELS → (v i).IsConnected = true → (v i).InetAddr = A →
        A ≠ B → CheckAddr cfg v B ≠ (i : Int)) := by
  refine ⟨CheckAddr_eq cfg v A, CheckAddr_eq_invalid cfg v A, ?_, ?_⟩
  · intro i hi hd hr
    rcases CheckAddr_cases cfg v A with ⟨j, hj, hjc, _, _, hjr⟩ | ⟨_, hr2⟩
    · have hij : j = i := by
        have := hjr.symm.trans hr
        exact_mod_cast this
      rw [hij, hd] at hjc
      exact absurd hjc (by simp)
    · exact sentinel_ne_index cfg hS i hi (hr.symm.trans hr2)
  · intro i B hi hc ha hAB hr
    rcases CheckAddr_cases cfg v B with ⟨j, hj, _, hja, _, hjr⟩ | ⟨_, hr2⟩
    · have hij : j = i := by
        have := hjr.symm.trans hr
        exact_mod_cast this
      rw [hij, ha] at hja
      exact hAB hja
    · exact sentinel_ne_index cfg hS i hi (hr.symm.trans hr2)

/-- Witness for C3: slot 0 of `oneClient` holds address 7, so looking up
address 8 does not return 0. -/
theorem CheckAddr_smallest_match_witness :
    SentinelOK smallCfg ∧ CheckAddr smallCfg oneClient (8 : Nat) ≠ 0 :=
  ⟨by decide,
   (CheckAddr_smallest_match smallCfg fifoExt oneClient (7 : Nat) (by decide)).2.2.2
      0 (8 : Nat) (by decide) (by decide) (by decide) (by show (7 : Nat) ≠ 8; decide)⟩

/-! ## Effect of the channel methods on address and time-out -/

theorem CChannel.PutData_InetAddr (cfg : Config) {E : Ext} (c : CChannel E) (buf : List Nat)
    (n now : Int) : (c.PutData cfg buf n now).2.InetAddr = c.InetAddr := by
  unfold CChannel.PutData
  split_ifs <;> rfl

theorem CChannel.PutData_iConTimeOut (cfg : Config) {E : Ext} (c : CChannel E) (buf : List Nat)
    (n now : Int) :
    (c.PutData cfg buf n now).2.iConTimeOut =
      if n = c.iAudComprSize then cfg.CON_TIME_OUT_CNT_MAX else c.iConTimeOut := by
  unfold CChannel.PutData
  split_ifs <;> rfl

theorem CChannel.PutData_iAudComprSize (cfg : Config) {E : Ext} (c : CChannel E)
    (buf : List Nat) (n now : Int) :
    (c.PutData cfg buf n now).2.iAudComprSize = c.iAudComprSize := by
  unfold CChannel.PutData
  split_ifs <;> rfl

theorem CChannel.GetData_InetAddr (cfg : Config) {E : Ext} (c : CChannel E) (d : List ℚ)
    (now : Int) : (c.GetData cfg d now).2.2.InetAddr = c.InetAddr := by
  unfold CChannel.GetData
  simp only
  split_ifs <;> rfl

theorem CChannel.GetData_iConTimeOut (cfg : Config) {E : Ext} (c : CChannel E) (d : List ℚ)
    (now : Int) :
    (c.GetData cfg d now).2.2.iConTimeOut =
      if (E.sockGet c.SockBuf d).1 = false ∧ 0 < c.iConTimeOut then c.iConTimeOut - 1
      else c.iConTimeOut := by
  unfold CChannel.GetData
  simp only
  cases hg : (E.sockGet c.SockBuf d).1 <;> by_cases ht : 0 < c.iConTimeOut
  all_goals simp [ht]
  all_goals split_ifs
  all_goals rfl

theorem CChannel.GetData_connected (cfg : Config) {E : Ext} (c : CChannel E) (d : List ℚ)
    (now : Int) (h : (c.GetData cfg d now).2.2.IsConnected = true) : c.IsConnected = true := by
  unfold CChannel.IsConnected at *
  rw [CChannel.GetData_iConTimeOut] at h
  simp only [decide_eq_true_eq] at *
  split_ifs at h <;> omega

/-! ## The three cases of `CChannelSet::PutData` -/

theorem PutData_known (cfg : Config) {E : Ext} (v : CChannelSet E) (buf : List Nat) (n : Int)
    (A : E.CHostAddress) (now : Int) (j : Nat) (hS : SentinelOK cfg)
    (hj : j < cfg.MAX_NUM_CHANNELS) (hc : CheckAddr cfg v A = (j : Int)) :
    (PutData cfg v buf n A now).vecChannels
        = Function.update v j ((v j).PutData cfg buf n now).2 ∧
    (PutData cfg v buf n A now).ret = false ∧
    (PutData cfg v buf n A now).posted =
      [⟨.MS_JIT_BUF_PUT, if ((v j).PutData cfg buf n now).1 then .MUL_COL_LED_GREEN
          else .MUL_COL_LED_RED, (j : Int)⟩] := by
  have hne : (j : Int) ≠ cfg.INVALID_CHANNEL_ID := sentinel_ne_index cfg hS j hj
  unfold PutData
  simp [hc, hne]

theorem PutData_new (cfg : Config) {E : Ext} (v : CChannelSet E) (buf : List Nat) (n : Int)
    (A : E.CHostAddress) (now : Int) (f : Nat) (hS : SentinelOK cfg)
    (hf : f < cfg.MAX_NUM_CHANNELS) (hc : CheckAddr cfg v A = cfg.INVALID_CHANNEL_ID)
    (hg : GetFreeChan cfg v = (f : Int)) :
    (PutData cfg v buf n A now).vecChannels
        = Function.update v f (((v f).SetAddress A).PutData cfg buf n now).2 ∧
    (PutData cfg v buf n A now).ret = false ∧
    (PutData cfg v buf n A now).posted =
      [⟨.MS_JIT_BUF_PUT, if (((v f).SetAddress A).PutData cfg buf n now).1
          then .MUL_COL_LED_GREEN else .MUL_COL_LED_RED, (f : Int)⟩] := by
  have hne : (f : Int) ≠ cfg.INVALID_CHANNEL_ID := sentinel_ne_index cfg hS f hf
  unfold PutData
  simp [hc, hg, hne]

theorem PutData_full (cfg : Config) {E : Ext} (v : CChannelSet E) (buf : List Nat) (n : Int)
    (A : E.CHostAddress) (now : Int) (hc : CheckAddr cfg v A = cfg.INVALID_CHANNEL_ID)
    (hg : GetFreeChan cfg v = cfg.INVALID_CHANNEL_ID) :
    (PutData cfg v buf n A now).vecChannels = v ∧
    (PutData cfg v buf n A now).ret = true ∧
    (PutData cfg v buf n A now).posted = [] := by
  unfold PutData
  simp [hc, hg]

/-! ## C1: uniqueness of connected addresses -/

theorem Shrinks.refl {E : Ext} (v : CChannelSet E) : Shrinks v v :=
  fun _ => ⟨rfl, id⟩

theorem Shrinks.trans {E : Ext} {u v w : CChannelSet E} (h1 : Shrinks u v) (h2 : Shrinks v w) :
    Shrinks u w :=
  fun i => ⟨(h2 i).1.trans (h1 i).1, fun h => (h1 i).2 ((h2 i).2 h)⟩

theorem Shrinks.update {E : Ext} (v : CChannelSet E) (i : Nat) (c : CChannel E)
    (ha : c.InetAddr = (v i).InetAddr) (hc : c.IsConnected = true → (v i).IsConnected = true) :
    Shrinks v (Function.update v i c) := by
  intro k
  by_cases hk : k = i
  · subst hk
    simp only [Function.update_same]
    exact ⟨ha, hc⟩
  · rw [Function.update_noteq hk]
    exact ⟨rfl, id⟩

theorem UniqueAddr.shrinks (cfg : Config) {E : Ext} {v w : CChannelSet E} (h : Shrinks v w)
    (hu : UniqueAddr cfg v) : UniqueAddr cfg w := by
  intro i j hi hj hij hci hcj
  rw [(h i).1, (h j).1]
  exact hu i j hi hj hij ((h i).2 hci) ((h j).2 hcj)

theorem GetBlockStep_shrinks (cfg : Config) {E : Ext} (now : Int) (s : GetBlockState E)
    (i : Nat) : Shrinks s.vecChannels (GetBlockStep cfg now s i).vecChannels := by
  have key : Shrinks s.vecChannels
      (Function.update s.vecChannels i ((s.vecChannels i).GetData cfg s.vecdData now).2.2) :=
    Shrinks.update _ _ _ (CChannel.GetData_InetAddr cfg _ _ _)
      (CChannel.GetData_connected cfg _ _ _)
  unfold GetBlockStep
  simp only
  split_ifs
  all_goals exact key

theorem GetBlockAllConC_shrinks (cfg : Config) {E : Ext} (v : CChannelSet E)
    (clock : Nat → Int) : Shrinks v (GetBlockAllConC cfg v clock).vecChannels := by
  unfold GetBlockAllConC
  generalize hs0 : ({ vecChannels := v
                      vecdData := List.replicate cfg.BLOCK_SIZE_SAMPLES 0
                      vecChanID := []
                      vecvecdData := []
                      posted := [] } : GetBlockState E) = s0
  have h0 : Shrinks v s0.vecChannels := by rw [← hs0]; exact Shrinks.refl v
  clear hs0
  induction (List.range cfg.MAX_NUM_CHANNELS) generalizing s0 with
  | nil => exact h0
  | cons a l ih =>
    simp only [List.foldl_cons]
    exact ih _ (h0.trans (GetBlockStep_shrinks cfg (clock a) s0 a))

theorem SetSockBufSize_shrinks (cfg : Config) {E : Ext} (v : CChannelSet E) (a b : Int) :
    Shrinks v (SetSockBufSize cfg v a b) := by
  unfold SetSockBufSize
  suffices h : ∀ (l : List Nat) (w : CChannelSet E), Shrinks v w →
      Shrinks v (l.foldl
        (fun u i => Function.update u i ((u i).SetSockBufSize a b)) w) from
    h _ v (Shrinks.refl v)
  intro l
  induction l with
  | nil => exact fun _ h0 => h0
  | cons k l ih =>
    intro w h0
    simp only [List.foldl_cons]
    exact ih _ (h0.trans (Shrinks.update w k ((w k).SetSockBufSize a b) rfl id))

theorem PutData_unique (cfg : Config) {E : Ext} (v : CChannelSet E) (buf : List Nat) (n : Int)
    (A : E.CHostAddress) (now : Int) (hS : SentinelOK cfg) (hu : UniqueAddr cfg v) :
    UniqueAddr cfg (PutData cfg v buf n A now).vecChannels := by
  rcases CheckAddr_cases cfg v A with ⟨j, hj, hjc, hja, _, hjr⟩ | ⟨hnone, hr⟩
  · -- the address is known: only slot `j` changes, its address stays
    rw [(PutData_known cfg v buf n A now j hS hj hjr).1]
    refine UniqueAddr.shrinks cfg (Shrinks.update v j _ ?_ (fun _ => hjc)) hu
    exact CChannel.PutData_InetAddr cfg _ _ _ _
  · rcases GetFreeChan_cases cfg v with ⟨f, hf, hff, _, hfr⟩ | ⟨_, hfull⟩
    · -- a free slot is bound to the new address
      rw [(PutData_new cfg v buf n A now f hS hf hr hfr).1]
      have hnew : ((((v f).SetAddress A).PutData cfg buf n now).2).InetAddr = A := by
        rw [CChannel.PutData_InetAddr]; rfl
      intro i k hi hk hik hci hck
      by_cases hif : i = f
      · subst hif
        have hkf : k ≠ i := fun h => hik h.symm
        simp only [Function.update_same, Function.update_noteq hkf] at hci hck ⊢
        rw [hnew]
        exact fun h => hnone k hk ⟨hck, h.symm⟩
      · by_cases hkf : k = f
        · subst hkf
          simp only [Function.update_same, Function.update_noteq hif] at hci hck ⊢
          rw [hnew]
          exact fun h => hnone i hi ⟨hci, h⟩
        · simp only [Function.update_noteq hif, Function.update_noteq hkf] at hci hck ⊢
          exact hu i k hi hk hik hci hck
    · rw [(PutData_full cfg v buf n A now hr hfull).1]
      exact hu

/-- C1: in every table reachable from the freshly constructed one by `PutData`,
`GetBlockAllConC` and `SetSockBufSize` calls (any addresses, payloads, lengths,
clock readings and any jitter buffer behaviour), no two distinct connected
slots hold equal addresses.  The sentinel is assumed not to be a slot index. -/
theorem reachable_unique_addr (cfg : Config) (E : Ext) (v : CChannelSet E)
    (hS : SentinelOK cfg) (hr : Reachable cfg E v) : UniqueAddr cfg v := by
  induction hr with
  | init clock =>
    intro i j _ _ _ hci _
    rw [new_not_connected] at hci
    exact absurd hci (by simp)
  | putData buf n A now _ ih => exact PutData_unique cfg _ buf n A now hS ih
  | getBlock clock _ ih => exact UniqueAddr.shrinks cfg (GetBlockAllConC_shrinks cfg _ clock) ih
  | setSockBuf a b _ ih => exact UniqueAddr.shrinks cfg (SetSockBufSize_shrinks cfg _ a b) ih

/-- Witness for C1: the table with clients 7 and 8 is reachable, and its two
connected slots hold different addresses. -/
theorem reachable_unique_addr_witness :
    SentinelOK smallCfg ∧ Reachable smallCfg fifoExt twoClients ∧
    (twoClients 0).IsConnected = true ∧ (twoClients 1).IsConnected = true ∧
    UniqueAddr smallCfg twoClients :=
  have hr : Reachable smallCfg fifoExt twoClients :=
    Reachable.putData _ _ _ _ (Reachable.putData _ _ _ _ (Reachable.init _))
  ⟨by decide, hr, by decide, by decide,
   reachable_unique_addr smallCfg fifoExt twoClients (by decide) hr⟩

/-! ## C4: a new address with an audio frame -/

theorem PutData_alloc_audio (cfg : Config) {E : Ext} (v : CChannelSet E) (buf : List Nat)
    (n : Int) (A : E.CHostAddress) (now : Int) (f : Nat) (hS : SentinelOK cfg)
    (hT : 0 < cfg.CON_TIME_OUT_CNT_MAX) (hf : f < cfg.MAX_NUM_CHANNELS)
    (hfree : (v f).IsConnected = false) (hlow : ∀ k, k < f → (v k).IsConnected = true)
    (hnew : ∀ i, i < cfg.MAX_NUM_CHANNELS → ¬ ((v i).IsConnected = true ∧ (v i).InetAddr = A))
    (hn : n = (v f).iAudComprSize) :
    (PutData cfg v buf n A now).ret = false ∧
    ((PutData cfg v buf n A now).vecChannels f).IsConnected = true ∧
    ((PutData cfg v buf n A now).vecChannels f).iConTimeOut = cfg.CON_TIME_OUT_CNT_MAX ∧
    ((PutData cfg v buf n A now).vecChannels f).InetAddr = A ∧
    ((PutData cfg v buf n A now).vecChannels f).iAudComprSize = (v f).iAudComprSize ∧
    CheckAddr cfg (PutData cfg v buf n A now).vecChannels A = (f : Int) ∧
    (∀ i, i ≠ f → (PutData cfg v buf n A now).vecChannels i = v i) := by
  have hc := CheckAddr_eq_invalid cfg v A hnew
  have hg := GetFreeChan_eq cfg v f hf hfree hlow
  obtain ⟨hv, hret, _⟩ := PutData_new cfg v buf n A now f hS hf hc hg
  have hsz : n = ((v f).SetAddress A).iAudComprSize := hn
  have hto : ((PutData cfg v buf n A now).vecChannels f).iConTimeOut
      = cfg.CON_TIME_OUT_CNT_MAX := by
    rw [hv, Function.update_same, CChannel.PutData_iConTimeOut, if_pos hsz]
  have haddr : ((PutData cfg v buf n A now).vecChannels f).InetAddr = A := by
    rw [hv, Function.update_same, CChannel.PutData_InetAddr]; rfl
  have hcon : ((PutData cfg v buf n A now).vecChannels f).IsConnected = true := by
    unfold CChannel.IsConnected
    rw [hto]
    exact decide_eq_true hT
  have hother : ∀ i, i ≠ f → (PutData cfg v buf n A now).vecChannels i = v i := by
    intro i hi
    rw [hv, Function.update_noteq hi]
  refine ⟨hret, hcon, hto, haddr, ?_, ?_, hother⟩
  · rw [hv, Function.update_same, CChannel.PutData_iAudComprSize]; rfl
  · refine CheckAddr_eq cfg _ A f hf hcon haddr ?_
    intro k hk
    rw [hother k (by omega)]
    exact hnew k (by omega)

/-- C4: if slot `f` is the lowest-index free slot and no connected slot holds
`A`, then `PutData` with a payload of the compressed-frame size from `A`
succeeds, leaves slot `f` connected with time-out `CON_TIME_OUT_CNT_MAX` and
bound to `A`, leaves every other slot as it was, and `CheckAddr A` afterwards
returns `f`.  Assumes the sentinel is not a slot index and
`CON_TIME_OUT_CNT_MAX` is positive. -/
theorem PutData_new_audio (cfg : Config) (E : Ext) (v : CChannelSet E) (buf : List Nat)
    (n : Int) (A : E.CHostAddress) (now : Int) (f : Nat) (hS : SentinelOK cfg)
    (hT : 0 < cfg.CON_TIME_OUT_CNT_MAX) (hf : f < cfg.MAX_NUM_CHANNELS)
    (hfree : (v f).IsConnected = false) (hlow : ∀ k, k < f → (v k).IsConnected = true)
    (hnew : ∀ i, i < cfg.MAX_NUM_CHANNELS → ¬ ((v i).IsConnected = true ∧ (v i).InetAddr = A))
    (hn : n = (v f).iAudComprSize) :
    (PutData cfg v buf n A now).ret = false ∧
    ((PutData cfg v buf n A now).vecChannels f).IsConnected = true ∧
    ((PutData cfg v buf n A now).vecChannels f).iConTimeOut = cfg.CON_TIME_OUT_CNT_MAX ∧
    ((PutData cfg v buf n A now).vecChannels f).InetAddr = A ∧
    CheckAddr cfg (PutData cfg v buf n A now).vecChannels A = (f : Int) ∧
    (∀ i, i ≠ f → (PutData cfg v buf n A now).vecChannels i = v i) := by
  obtain ⟨h1, h2, h3, h4, _, h6, h7⟩ :=
    PutData_alloc_audio cfg v buf n A now f hS hT hf hfree hlow hnew hn
  exact ⟨h1, h2, h3, h4, h6, h7⟩

/-- Witness for C4: with client 7 on slot 0, an audio frame from address 8
connects slot 1. -/
theorem PutData_new_audio_witness :
    CheckAddr smallCfg oneClient (8 : Nat) = smallCfg.INVALID_CHANNEL_ID ∧
    (PutData smallCfg oneClient [1, 2, 3, 4, 5] 5 (8 : Nat) 0).ret = false ∧
    ((PutData smallCfg oneClient [1, 2, 3, 4, 5] 5 (8 : Nat) 0).vecChannels 1).IsConnected
      = true ∧
    CheckAddr smallCfg (PutData smallCfg oneClient [1, 2, 3, 4, 5] 5 (8 : Nat) 0).vecChannels
      (8 : Nat) = 1 :=
  have h := PutData_new_audio smallCfg fifoExt oneClient [1, 2, 3, 4, 5] 5 (8 : Nat) 0 1
    (by decide) (by decide) (by decide) (by decide) (by decide) (by decide) (by decide)
  ⟨by decide, h.1, h.2.1, h.2.2.2.2.1⟩

/-! ## C5: capacity -/

theorem PutDataSeq_fill (cfg : Config) {E : Ext} (n : Int) (hS : SentinelOK cfg)
    (hT : 0 < cfg.CON_TIME_OUT_CNT_MAX) :
    ∀ (pkts : List (Packet E)) (v : CChannelSet E) (k : Nat),
      k + pkts.length ≤ cfg.MAX_NUM_CHANNELS →
      (∀ j, j < k → (v j).IsConnected = true) →
      (∀ j, k ≤ j → j < cfg.MAX_NUM_CHANNELS →
        (v j).IsConnected = false ∧ (v j).iAudComprSize = n) →
      (pkts.map (fun p => p.2.1)).Nodup →
      (∀ p ∈ pkts, ∀ j, j < k → (v j).InetAddr ≠ p.2.1) →
      (∀ b ∈ (PutDataSeq cfg n v pkts).2, b = false) ∧
      (PutDataSeq cfg n v pkts).2.length = pkts.length ∧
      (∀ j, j < k → (PutDataSeq cfg n v pkts).1 j = v j) ∧
      (∀ j (h : j < pkts.length),
        ((PutDataSeq cfg n v pkts).1 (k + j)).IsConnected = true ∧
        ((PutDataSeq cfg n v pkts).1 (k + j)).iConTimeOut = cfg.CON_TIME_OUT_CNT_MAX ∧
        ((PutDataSeq cfg n v pkts).1 (k + j)).InetAddr = pkts[j].2.1) ∧
      (∀ j, k + pkts.length ≤ j → (PutDataSeq cfg n v pkts).1 j = v j) := by
  intro pkts
  induction pkts with
  | nil =>
    intro v k _ _ _ _ _
    refine ⟨?_, rfl, fun _ _ => rfl, ?_, fun _ _ => rfl⟩
    · intro b hb; simp [PutDataSeq] at hb
    · intro j h; simp at h
  | cons p ps ih =>
    intro v k hlen hconn hrest hnd hpre
    simp only [List.length_cons] at hlen
    have hk : k < cfg.MAX_NUM_CHANNELS := by omega
    have hnew : ∀ i, i < cfg.MAX_NUM_CHANNELS →
        ¬ ((v i).IsConnected = true ∧ (v i).InetAddr = p.2.1) := by
      intro i hi hc
      by_cases hik : i < k
      · exact hpre p (List.mem_cons_self _ _) i hik hc.2
      · have := (hrest i (by omega) hi).1
        rw [hc.1] at this
        exact absurd this (by simp)
    obtain ⟨hret, hcon, hto, haddr, hsz, _, hother⟩ :=
      PutData_alloc_audio cfg v p.1 n p.2.1 p.2.2 k hS hT hk (hrest k (le_refl k) hk).1
        hconn hnew (hrest k (le_refl k) hk).2.symm
    simp only [List.map_cons, List.nodup_cons, List.mem_map, not_exists, not_and] at hnd
    obtain ⟨hih1, hih2, hih3, hih4, hih5⟩ :=
      ih (PutData cfg v p.1 n p.2.1 p.2.2).vecChannels (k + 1) (by omega)
        (by
          intro j hj
          by_cases hjk : j = k
          · rw [hjk]; exact hcon
          · rw [hother j hjk]; exact hconn j (by omega))
        (by
          intro j hj1 hj2
          rw [hother j (by omega)]
          exact hrest j (by omega) hj2)
        hnd.2
        (by
          intro q hq j hj
          by_cases hjk : j = k
          · rw [hjk, haddr]
            exact fun h => hnd.1 q hq h.symm
          · rw [hother j hjk]
            exact hpre q (List.mem_cons_of_mem _ hq) j (by omega))
    have hunf : PutDataSeq cfg n v (p :: ps) =
        ((PutDataSeq cfg n (PutData cfg v p.1 n p.2.1 p.2.2).vecChannels ps).1,
         (PutData cfg v p.1 n p.2.1 p.2.2).ret ::
           (PutDataSeq cfg n (PutData cfg v p.1 n p.2.1 p.2.2).vecChannels ps).2) := rfl
    rw [hunf]
    refine ⟨?_, ?_, ?_, ?_, ?_⟩
    · intro b hb
      rcases List.mem_cons.1 hb with h | h
      · rw [h]; exact hret
      · exact hih1 b h
    · simp [hih2]
    · intro j hj
      show (PutDataSeq cfg n (PutData cfg v p.1 n p.2.1 p.2.2).vecChannels ps).1 j = v j
      rw [hih3 j (by omega), hother j (by omega)]
    · intro j h
      show ((PutDataSeq cfg n (PutData cfg v p.1 n p.2.1 p.2.2).vecChannels ps).1
              (k + j)).IsConnected = true ∧
           ((PutDataSeq cfg n (PutData cfg v p.1 n p.2.1 p.2.2).vecChannels ps).1
              (k + j)).iConTimeOut = cfg.CON_TIME_OUT_CNT_MAX ∧
           ((PutDataSeq cfg n (PutData cfg v p.1 n p.2.1 p.2.2).vecChannels ps).1
              (k + j)).InetAddr = (p :: ps)[j].2.1
      cases j with
      | zero =>
        rw [Nat.add_zero, hih3 k (by omega)]
        exact ⟨hcon, hto, haddr⟩
      | succ m =>
        have hm : m < ps.length := by simpa using h
        have := hih4 m hm
        rw [show k + 1 + m = k + (m + 1) by omega] at this
        simpa using this
    · intro j hj
      show (PutDataSeq cfg n (PutData cfg v p.1 n p.2.1 p.2.2).vecChannels ps).1 j = v j
      simp only [List.length_cons] at hj
      rw [hih5 j (by omega), hother j (by omega)]

/-- C5: starting from the freshly constructed table, audio-sized packets from
pairwise distinct addresses, at most `MAX_NUM_CHANNELS` of them, all succeed,
and packet number `j` connects slot `j` (time-out `CON_TIME_OUT_CNT_MAX`, bound
to its sender) while the slots from the number of packets on stay as
constructed; so `MAX_NUM_CHANNELS` packets connect the slots
`0..MAX_NUM_CHANNELS-1` in order.  When every slot is connected and none holds
`A`, `PutData` from `A` returns the error flag for every payload and length,
posts nothing, leaves the whole table unchanged, and `CheckAddr A` is still
`INVALID_CHANNEL_ID`.  Assumes the sentinel is not a slot index and
`CON_TIME_OUT_CNT_MAX` is positive. -/
theorem capacity_limit (cfg : Config) (E : Ext) (hS : SentinelOK cfg)
    (hT : 0 < cfg.CON_TIME_OUT_CNT_MAX) :
    (∀ (clock : Nat → Int) (pkts : List (Packet E)),
      pkts.length ≤ cfg.MAX_NUM_CHANNELS → (pkts.map (fun p => p.2.1)).Nodup →
      (∀ b ∈ (PutDataSeq cfg (CChannel.new cfg E 0).iAudComprSize
                (CChannelSet.new cfg E clock) pkts).2, b = false) ∧
      (PutDataSeq cfg (CChannel.new cfg E 0).iAudComprSize
          (CChannelSet.new cfg E clock) pkts).2.length = pkts.length ∧
      (∀ j (h : j < pkts.length),
        ((PutDataSeq cfg (CChannel.new cfg E 0).iAudComprSize
            (CChannelSet.new cfg E clock) pkts).1 j).IsConnected = true ∧
        ((PutDataSeq cfg (CChannel.new cfg E 0).iAudComprSize
            (CChannelSet.new cfg E clock) pkts).1 j).iConTimeOut = cfg.CON_TIME_OUT_CNT_MAX ∧
        ((PutDataSeq cfg (CChannel.new cfg E 0).iAudComprSize
            (CChannelSet.new cfg E clock) pkts).1 j).InetAddr = pkts[j].2.1) ∧
      (∀ j, pkts.length ≤ j →
        (PutDataSeq cfg (CChannel.new cfg E 0).iAudComprSize
            (CChannelSet.new cfg E clock) pkts).1 j = CChannelSet.new cfg E clock j)) ∧
    (∀ (v : CChannelSet E) (A : E.CHostAddress) (buf : List Nat) (n now : Int),
      (∀ i, i < cfg.MAX_NUM_CHANNELS → (v i).IsConnected = true) →
      (∀ i, i < cfg.MAX_NUM_CHANNELS → (v i).InetAddr ≠ A) →
      (PutData cfg v buf n A now).ret = true ∧
      (PutData cfg v buf n A now).vecChannels = v ∧
      (PutData cfg v buf n A now).posted = [] ∧
      CheckAddr cfg (PutData cfg v buf n A now).vecChannels A = cfg.INVALID_CHANNEL_ID) := by
  constructor
  · intro clock pkts hlen hnd
    obtain ⟨h1, h2, _, h4, h5⟩ :=
      PutDataSeq_fill cfg (CChannel.new cfg E 0).iAudComprSize hS hT pkts
        (CChannelSet.new cfg E clock) 0 (by omega) (fun j hj => absurd hj (Nat.not_lt_zero j))
        (fun j _ _ => ⟨new_not_connected cfg E clock j, rfl⟩) hnd
        (fun _ _ j hj => absurd hj (Nat.not_lt_zero j))
    refine ⟨h1, h2, ?_, ?_⟩
    · intro j h
      have := h4 j h
      rwa [Nat.zero_add] at this
    · intro j hj
      exact h5 j (by omega)
  · intro v A buf n now hall hnone
    have hc : CheckAddr cfg v A = cfg.INVALID_CHANNEL_ID :=
      CheckAddr_eq_invalid cfg v A (fun i hi h => hnone i hi h.2)
    have hg : GetFreeChan cfg v = cfg.INVALID_CHANNEL_ID := by
      rcases GetFreeChan_cases cfg v with ⟨j, hj, hjf, _, _⟩ | ⟨_, hr⟩
      · have := hall j hj; rw [hjf] at this; exact absurd this (by simp)
      · exact hr
    obtain ⟨h1, h2, h3⟩ := PutData_full cfg v buf n A now hc hg
    refine ⟨h2, h1, h3, ?_⟩
    rw [h1]; exact hc

/-- Witness for C5 on the two-slot configuration: frames from 7 and 8 are both
accepted, and a packet from 9 to the full table is refused. -/
theorem capacity_limit_witness :
    SentinelOK smallCfg ∧ 0 < smallCfg.CON_TIME_OUT_CNT_MAX ∧
    (PutDataSeq smallCfg 5 freshTable [([0, 0, 0, 0, 0], (7 : Nat), 0),
        ([0, 0, 0, 0, 0], (8 : Nat), 0)]).2.length = 2 ∧
    (PutData smallCfg twoClients [1] 1 (9 : Nat) 0).ret = true :=
  have h := capacity_limit smallCfg fifoExt (by decide) (by decide)
  ⟨by decide, by decide,
   (h.1 (fun _ => 0) [([0, 0, 0, 0, 0], (7 : Nat), 0), ([0, 0, 0, 0, 0], (8 : Nat), 0)]
      (by decide) (by decide)).2.1,
   (h.2 twoClients (9 : Nat) [1] 1 0 (by decide) (by decide)).1⟩

/-! ## C6: the flag returned by `CChannelSet::PutData` -/

/-- C6, as stated, fails: on the table with client 7 connected on slot 0, a
three-byte payload from 7 is rejected by the channel (frame size 5), yet
`CChannelSet::PutData` returns "no error"; so the returned flag is not
equivalent to "no channel available or payload rejected". -/
theorem PutData_ret_ignores_rejection :
    CheckAddr smallCfg oneClient (7 : Nat) = 0 ∧
    ((oneClient 0).PutData smallCfg [1, 2, 3] 3 0).1 = false ∧
    (PutData smallCfg oneClient [1, 2, 3] 3 (7 : Nat) 0).ret = false ∧
    ¬ ((PutData smallCfg oneClient [1, 2, 3] 3 (7 : Nat) 0).ret = true ↔
        ((CheckAddr smallCfg oneClient (7 : Nat) = smallCfg.INVALID_CHANNEL_ID ∧
          GetFreeChan smallCfg oneClient = smallCfg.INVALID_CHANNEL_ID) ∨
         ((oneClient 0).PutData smallCfg [1, 2, 3] 3 0).1 = false)) := by
  decide

/-- C6 amended: `CChannelSet::PutData` returns the error flag exactly when no
channel was available (`CheckAddr` and `GetFreeChan` both returned the
sentinel).  When the address is already bound to slot `j` and the channel
rejects the payload, the call still returns "no error"; the rejection shows
only in the red status message for slot `j`. -/
theorem PutData_ret_iff_no_channel (cfg : Config) (E : Ext) (v : CChannelSet E)
    (buf : List Nat) (n : Int) (A : E.CHostAddress) (now : Int) :
    ((PutData cfg v buf n A now).ret = true ↔
        (CheckAddr cfg v A = cfg.INVALID_CHANNEL_ID ∧
         GetFreeChan cfg v = cfg.INVALID_CHANNEL_ID)) ∧
    (∀ j, SentinelOK cfg → j < cfg.MAX_NUM_CHANNELS → CheckAddr cfg v A = (j : Int) →
        ((v j).PutData cfg buf n now).1 = false →
        (PutData cfg v buf n A now).ret = false ∧
        (PutData cfg v buf n A now).posted =
          [⟨.MS_JIT_BUF_PUT, .MUL_COL_LED_RED, (j : Int)⟩]) := by
  constructor
  · unfold PutData
    by_cases hc : CheckAddr cfg v A = cfg.INVALID_CHANNEL_ID
    · by_cases hg : GetFreeChan cfg v = cfg.INVALID_CHANNEL_ID
      · simp [hc, hg]
      · simp [hc, hg]
    · simp [hc]
  · intro j hS hj hc hrej
    obtain ⟨_, h2, h3⟩ := PutData_known cfg v buf n A now j hS hj hc
    refine ⟨h2, ?_⟩
    rw [h3, hrej]
    rfl

/-- Witness for the amended C6: the rejected three-byte payload from the
connected address 7 returns "no error" and posts a red message. -/
theorem PutData_ret_iff_no_channel_witness :
    SentinelOK smallCfg ∧ CheckAddr smallCfg oneClient (7 : Nat) = 0 ∧
    ((oneClient 0).PutData smallCfg [1, 2, 3] 3 0).1 = false ∧
    (PutData smallCfg oneClient [1, 2, 3] 3 (7 : Nat) 0).ret = false ∧
    (PutData smallCfg oneClient [1, 2, 3] 3 (7 : Nat) 0).posted =
      [⟨.MS_JIT_BUF_PUT, .MUL_COL_LED_RED, 0⟩] :=
  have h := (PutData_ret_iff_no_channel smallCfg fifoExt oneClient [1, 2, 3] 3 (7 : Nat) 0).2
    0 (by decide) (by decide) (by decide) (by decide)
  ⟨by decide, by decide, by decide, h.1, h.2⟩

/-! ## C7: payloads of a wrong length -/

theorem CChannel.PutData_wrong_size (cfg : Config) {E : Ext} (c : CChannel E) (buf : List Nat)
    (n now : Int) (hsz : n ≠ c.iAudComprSize) (h1 : n ≠ 1) :
    c.PutData cfg buf n now = (false, c) := by
  unfold CChannel.PutData
  rw [if_neg hsz, if_neg h1]

theorem GetFreeChan_congr (cfg : Config) {E : Ext} (v w : CChannelSet E)
    (hc : ∀ i, (w i).IsConnected = (v i).IsConnected) :
    GetFreeChan cfg w = GetFreeChan cfg v := by
  unfold GetFreeChan
  rw [GetFreeChanLoop_eq, GetFreeChanLoop_eq]
  congr 1
  funext k
  rw [hc k]

theorem CheckAddr_congr (cfg : Config) {E : Ext} (v w : CChannelSet E) (B : E.CHostAddress)
    (hc : ∀ i, (w i).IsConnected = (v i).IsConnected)
    (ha : ∀ i, (v i).IsConnected = true → (w i).InetAddr = (v i).InetAddr) :
    CheckAddr cfg w B = CheckAddr cfg v B := by
  unfold CheckAddr
  rw [CheckAddrLoop_eq, CheckAddrLoop_eq]
  congr 1
  funext k
  rw [hc k]
  cases hk : (v k).IsConnected with
  | false => rfl
  | true => rw [ha k hk]

/-- C7, as stated, fails: on the freshly constructed table a three-byte payload
(neither the frame size 5 nor 1) from the new address 7 overwrites the stored
address of slot 0. -/
theorem PutData_wrong_size_sets_address :
    (3 : Int) ≠ (freshTable 0).iAudComprSize ∧ (3 : Int) ≠ 1 ∧
    ((PutData smallCfg freshTable [1, 2, 3] 3 (7 : Nat) 0).vecChannels 0).InetAddr = (7 : Nat) ∧
    (freshTable 0).InetAddr = (0 : Nat) ∧
    ((PutData smallCfg freshTable [1, 2, 3] 3 (7 : Nat) 0).vecChannels 0).InetAddr
      ≠ (freshTable 0).InetAddr := by
  decide

/-- C7 amended: for a payload whose length is neither 1 nor the compressed-frame
size of any slot, `CChannelSet::PutData` leaves every slot's time-out, drift
estimator and jitter buffer, and every member other than the stored address, as
they were; a stored address changes only in a disconnected slot, namely the
lowest free one when the sender is unknown, where it becomes the sender's
address.  So no slot is connected or disconnected, and `CheckAddr` (for every
address) and `GetFreeChan` return what they returned before; if the sender is
already known the whole table is unchanged.  Assumes the sentinel is not a slot
index. -/
theorem PutData_wrong_size_frame (cfg : Config) (E : Ext) (v : CChannelSet E)
    (buf : List Nat) (n : Int) (A : E.CHostAddress) (now : Int) (hS : SentinelOK cfg)
    (h1 : n ≠ 1) (hsz : ∀ i, i < cfg.MAX_NUM_CHANNELS → n ≠ (v i).iAudComprSize) :
    (∀ i,
      ((PutData cfg v buf n A now).vecChannels i).iConTimeOut = (v i).iConTimeOut ∧
      ((PutData cfg v buf n A now).vecChannels i).SampleOffsetEst = (v i).SampleOffsetEst ∧
      ((PutData cfg v buf n A now).vecChannels i).SockBuf = (v i).SockBuf ∧
      (PutData cfg v buf n A now).vecChannels i
        = (v i).SetAddress ((PutData cfg v buf n A now).vecChannels i).InetAddr ∧
      (((PutData cfg v buf n A now).vecChannels i).InetAddr = (v i).InetAddr ∨
        ((v i).IsConnected = false ∧
         ((PutData cfg v buf n A now).vecChannels i).InetAddr = A ∧
         CheckAddr cfg v A = cfg.INVALID_CHANNEL_ID ∧ GetFreeChan cfg v = (i : Int)))) ∧
    (∀ B, CheckAddr cfg (PutData cfg v buf n A now).vecChannels B = CheckAddr cfg v B) ∧
    GetFreeChan cfg (PutData cfg v buf n A now).vecChannels = GetFreeChan cfg v ∧
    (CheckAddr cfg v A ≠ cfg.INVALID_CHANNEL_ID → (PutData cfg v buf n A now).vecChannels = v) := by
  have hmain : ∀ i,
      ((PutData cfg v buf n A now).vecChannels i).iConTimeOut = (v i).iConTimeOut ∧
      ((PutData cfg v buf n A now).vecChannels i).SampleOffsetEst = (v i).SampleOffsetEst ∧
      ((PutData cfg v buf n A now).vecChannels i).SockBuf = (v i).SockBuf ∧
      (PutData cfg v buf n A now).vecChannels i
        = (v i).SetAddress ((PutData cfg v buf n A now).vecChannels i).InetAddr ∧
      (((PutData cfg v buf n A now).vecChannels i).InetAddr = (v i).InetAddr ∨
        ((v i).IsConnected = false ∧
         ((PutData cfg v buf n A now).vecChannels i).InetAddr = A ∧
         CheckAddr cfg v A = cfg.INVALID_CHANNEL_ID ∧ GetFreeChan cfg v = (i : Int))) := by
    intro i
    rcases CheckAddr_cases cfg v A with ⟨j, hj, _, _, _, hjr⟩ | ⟨_, hr⟩
    · rw [(PutData_known cfg v buf n A now j hS hj hjr).1,
        CChannel.PutData_wrong_size cfg (v j) buf n now (hsz j hj) h1, Function.update_eq_self]
      exact ⟨rfl, rfl, rfl, rfl, Or.inl rfl⟩
    · rcases GetFreeChan_cases cfg v with ⟨f, hf, hff, _, hfr⟩ | ⟨_, hfull⟩
      · rw [(PutData_new cfg v buf n A now f hS hf hr hfr).1,
          CChannel.PutData_wrong_size cfg ((v f).SetAddress A) buf n now (hsz f hf) h1]
        by_cases hif : i = f
        · subst hif
          simp only [Function.update_same]
          exact ⟨rfl, rfl, rfl, rfl, Or.inr ⟨hff, rfl, hr, hfr⟩⟩
        · rw [Function.update_noteq hif]
          exact ⟨rfl, rfl, rfl, rfl, Or.inl rfl⟩
      · rw [(PutData_full cfg v buf n A now hr hfull).1]
        exact ⟨rfl, rfl, rfl, rfl, Or.inl rfl⟩
  have hcon : ∀ i, ((PutData cfg v buf n A now).vecChannels i).IsConnected
      = (v i).IsConnected := by
    intro i
    unfold CChannel.IsConnected
    rw [(hmain i).1]
  have haddr : ∀ i, (v i).IsConnected = true →
      ((PutData cfg v buf n A now).vecChannels i).InetAddr = (v i).InetAddr := by
    intro i hi
    rcases (hmain i).2.2.2.2 with h | h
    · exact h
    · rw [h.1] at hi; exact absurd hi (by simp)
  refine ⟨hmain, fun B => CheckAddr_congr cfg v _ B hcon haddr,
    GetFreeChan_congr cfg v _ hcon, ?_⟩
  intro hne
  rcases CheckAddr_cases cfg v A with ⟨j, hj, _, _, _, hjr⟩ | ⟨_, hr⟩
  · rw [(PutData_known cfg v buf n A now j hS hj hjr).1,
      CChannel.PutData_wrong_size cfg (v j) buf n now (hsz j hj) h1, Function.update_eq_self]
  · exact absurd hr hne

/-- Witness for the amended C7: the three-byte payload from the new address 7
on the fresh table leaves slot 0 disconnected and `CheckAddr 7` at the
sentinel. -/
theorem PutData_wrong_size_frame_witness :
    SentinelOK smallCfg ∧ (3 : Int) ≠ 1 ∧
    (∀ i, i < smallCfg.MAX_NUM_CHANNELS → (3 : Int) ≠ (freshTable i).iAudComprSize) ∧
    ((PutData smallCfg freshTable [1, 2, 3] 3 (7 : Nat) 0).vecChannels 0).iConTimeOut = 0 ∧
    CheckAddr smallCfg (PutData smallCfg freshTable [1, 2, 3] 3 (7 : Nat) 0).vecChannels
      (7 : Nat) = smallCfg.INVALID_CHANNEL_ID :=
  have h := PutData_wrong_size_frame smallCfg fifoExt freshTable [1, 2, 3] 3 (7 : Nat) 0
    (by decide) (by decide) (by decide)
  ⟨by decide, by decide, by decide, (h.1 0).1, (h.2.1 (7 : Nat)).trans (by decide)⟩

/-! ## C8: a time stamp from a new address -/

theorem CChannel.PutData_time_stamp (cfg : Config) {E : Ext} (c : CChannel E) (buf : List Nat)
    (now : Int) (hsz : c.iAudComprSize ≠ 1) :
    c.PutData cfg buf 1 now =
      (true, { c with SampleOffsetEst :=
        c.SampleOffsetEst.AddTimeStampIdx cfg E ((buf.getD 0 0 % 256 : Nat) : Int) now }) := by
  unfold CChannel.PutData
  rw [if_neg (fun h => hsz h.symm), if_pos rfl]

/-- C8, as stated, fails: on the freshly constructed table (slot 0 free, address
7 unknown) a one-byte time stamp payload from 7 leaves no slot connected and
bound to 7. -/
theorem time_stamp_does_not_connect :
    GetFreeChan smallCfg freshTable = 0 ∧
    CheckAddr smallCfg freshTable (7 : Nat) = smallCfg.INVALID_CHANNEL_ID ∧
    (PutData smallCfg freshTable [42] 1 (7 : Nat) 0).ret = false ∧
    ¬ ∃ i, i < smallCfg.MAX_NUM_CHANNELS ∧
      ((PutData smallCfg freshTable [42] 1 (7 : Nat) 0).vecChannels i).IsConnected = true ∧
      ((PutData smallCfg freshTable [42] 1 (7 : Nat) 0).vecChannels i).InetAddr = (7 : Nat) := by
  decide

/-- C8 amended: if slot `f` is the lowest-index free slot, no connected slot
holds `A` and the frame size of slot `f` is not 1, then a one-byte payload from
`A` is accepted, stores `A` in slot `f` and feeds the byte to that slot's drift
estimator, but leaves the time-out of slot `f` as it was: the slot stays
disconnected, every other slot is unchanged, no slot is connected and bound to
`A`, and `CheckAddr A` still returns the sentinel.  (Only an audio frame
connects a slot, see C4.)  Assumes the sentinel is not a slot index. -/
theorem PutData_new_time_stamp (cfg : Config) (E : Ext) (v : CChannelSet E) (buf : List Nat)
    (A : E.CHostAddress) (now : Int) (f : Nat) (hS : SentinelOK cfg)
    (hf : f < cfg.MAX_NUM_CHANNELS) (hfree : (v f).IsConnected = false)
    (hlow : ∀ k, k < f → (v k).IsConnected = true)
    (hnew : ∀ i, i < cfg.MAX_NUM_CHANNELS → ¬ ((v i).IsConnected = true ∧ (v i).InetAddr = A))
    (hsz : (v f).iAudComprSize ≠ 1) :
    (PutData cfg v buf 1 A now).ret = false ∧
    ((PutData cfg v buf 1 A now).vecChannels f).InetAddr = A ∧
    ((PutData cfg v buf 1 A now).vecChannels f).iConTimeOut = (v f).iConTimeOut ∧
    ((PutData cfg v buf 1 A now).vecChannels f).IsConnected = false ∧
    ((PutData cfg v buf 1 A now).vecChannels f).SampleOffsetEst =
      (v f).SampleOffsetEst.AddTimeStampIdx cfg E ((buf.getD 0 0 % 256 : Nat) : Int) now ∧
    (∀ i, i ≠ f → (PutData cfg v buf 1 A now).vecChannels i = v i) ∧
    (∀ i, i < cfg.MAX_NUM_CHANNELS →
      ¬ (((PutData cfg v buf 1 A now).vecChannels i).IsConnected = true ∧
         ((PutData cfg v buf 1 A now).vecChannels i).InetAddr = A)) ∧
    CheckAddr cfg (PutData cfg v buf 1 A now).vecChannels A = cfg.INVALID_CHANNEL_ID := by
  have hc := CheckAddr_eq_invalid cfg v A hnew
  have hg := GetFreeChan_eq cfg v f hf hfree hlow
  obtain ⟨hv, hret, _⟩ := PutData_new cfg v buf 1 A now f hS hf hc hg
  have hput := CChannel.PutData_time_stamp cfg ((v f).SetAddress A) buf now hsz
  have hslot : (PutData cfg v buf 1 A now).vecChannels f =
      { (v f).SetAddress A with SampleOffsetEst :=
          (v f).SampleOffsetEst.AddTimeStampIdx cfg E ((buf.getD 0 0 % 256 : Nat) : Int) now } := by
    rw [hv, Function.update_same, hput]
    rfl
  have hother : ∀ i, i ≠ f → (PutData cfg v buf 1 A now).vecChannels i = v i := by
    intro i hi
    rw [hv, Function.update_noteq hi]
  have hdis : ((PutData cfg v buf 1 A now).vecChannels f).IsConnected = false := by
    rw [hslot]; exact hfree
  have hnone : ∀ i, i < cfg.MAX_NUM_CHANNELS →
      ¬ (((PutData cfg v buf 1 A now).vecChannels i).IsConnected = true ∧
         ((PutData cfg v buf 1 A now).vecChannels i).InetAddr = A) := by
    intro i hi h
    by_cases hif : i = f
    · rw [hif, hdis] at h
      exact absurd h.1 (by simp)
    · rw [hother i hif] at h
      exact hnew i hi h
  refine ⟨hret, ?_, ?_, hdis, ?_, hother, hnone, CheckAddr_eq_invalid cfg _ A hnone⟩
  · rw [hslot]; rfl
  · rw [hslot]; rfl
  · rw [hslot]

/-- Witness for the amended C8: the time stamp from address 7 on the fresh
table leaves slot 0 disconnected. -/
theorem PutData_new_time_stamp_witness :
    SentinelOK smallCfg ∧ (freshTable 0).iAudComprSize ≠ 1 ∧
    ((PutData smallCfg freshTable [42] 1 (7 : Nat) 0).vecChannels 0).InetAddr = (7 : Nat) ∧
    ((PutData smallCfg freshTable [42] 1 (7 : Nat) 0).vecChannels 0).IsConnected = false :=
  have h := PutData_new_time_stamp smallCfg fifoExt freshTable [42] (7 : Nat) 0 0
    (by decide) (by decide) (by decide) (by decide) (by decide) (by decide)
  ⟨by decide, by decide, h.2.1, h.2.2.2.1⟩

/-! ## C9: `CChannel::PutData` -/

/-- C9: for a channel whose compressed-frame size is not 1: a payload of the
frame size sets the time-out to `CON_TIME_OUT_CNT_MAX` whatever the jitter
buffer answers, hands the decoded frame to the jitter buffer and returns the
jitter buffer's `Put` result; a one-byte payload feeds the byte to the drift
estimator, leaves time-out and jitter buffer unchanged and returns success;
any other length returns failure and leaves the whole channel unchanged. -/
theorem CChannel.PutData_post (cfg : Config) (E : Ext) (c : CChannel E) (buf : List Nat)
    (n now : Int) (hsz : c.iAudComprSize ≠ 1) :
    (n = c.iAudComprSize →
      (c.PutData cfg buf n now).2.iConTimeOut = cfg.CON_TIME_OUT_CNT_MAX ∧
      (c.PutData cfg buf n now).1 =
        (E.sockPut c.SockBuf ((List.range cfg.BLOCK_SIZE_SAMPLES).map
          (fun i => (((E.codecDecode c.AudioCompression buf).1.getD i 0 : Int) : ℚ)))).1 ∧
      (c.PutData cfg buf n now).2.SockBuf =
        (E.sockPut c.SockBuf ((List.range cfg.BLOCK_SIZE_SAMPLES).map
          (fun i => (((E.codecDecode c.AudioCompression buf).1.getD i 0 : Int) : ℚ)))).2 ∧
      (c.PutData cfg buf n now).2.SampleOffsetEst = c.SampleOffsetEst) ∧
    (n = 1 →
      (c.PutData cfg buf n now).2.SampleOffsetEst =
        c.SampleOffsetEst.AddTimeStampIdx cfg E ((buf.getD 0 0 % 256 : Nat) : Int) now ∧
      (c.PutData cfg buf n now).2.iConTimeOut = c.iConTimeOut ∧
      (c.PutData cfg buf n now).2.SockBuf = c.SockBuf ∧
      (c.PutData cfg buf n now).1 = true) ∧
    (n ≠ c.iAudComprSize → n ≠ 1 →
      (c.PutData cfg buf n now).1 = false ∧ (c.PutData cfg buf n now).2 = c) := by
  refine ⟨?_, ?_, ?_⟩
  · intro hn
    unfold CChannel.PutData
    rw [if_pos hn]
    exact ⟨rfl, rfl, rfl, rfl⟩
  · intro hn
    subst hn
    rw [CChannel.PutData_time_stamp cfg c buf now hsz]
    exact ⟨rfl, rfl, rfl, rfl⟩
  · intro h1 h2
    rw [CChannel.PutData_wrong_size cfg c buf n now h1 h2]
    exact ⟨rfl, rfl⟩

/-- Witness for C9: an audio frame put into the connected slot 0 of `oneClient`
(frame size 5) resets its time-out to the maximum. -/
theorem CChannel.PutData_post_witness :
    (oneClient 0).iAudComprSize ≠ 1 ∧
    ((oneClient 0).PutData smallCfg [1, 2, 3, 4, 5] 5 0).2.iConTimeOut
      = smallCfg.CON_TIME_OUT_CNT_MAX :=
  ⟨by decide,
   ((CChannel.PutData_post smallCfg fifoExt (oneClient 0) [1, 2, 3, 4, 5] 5 0 (by decide)).1
      (by decide)).1⟩

/-! ## C10: time-out decay under repeated `GetData` -/

theorem CChannel.GetData_SampleOffsetEst (cfg : Config) {E : Ext} (c : CChannel E)
    (d : List ℚ) (now : Int) :
    (c.GetData cfg d now).2.2.SampleOffsetEst =
      if (E.sockGet c.SockBuf d).1 = false ∧ 0 < c.iConTimeOut ∧ c.iConTimeOut - 1 = 0 then
        CSampleOffsetEst.Init cfg now
      else c.SampleOffsetEst := by
  unfold CChannel.GetData
  simp only
  cases hg : (E.sockGet c.SockBuf d).1 <;> by_cases ht : 0 < c.iConTimeOut <;>
    by_cases h0 : c.iConTimeOut - 1 = 0
  all_goals simp [ht, h0]

/-- C10, as stated, fails: slot 0 of `oneClient` is connected with time-out
`CON_TIME_OUT_CNT_MAX` = 2 and one frame in its jitter buffer; the first
`GetData` call gets that frame and does not decrement the time-out, and after
`CON_TIME_OUT_CNT_MAX` calls the channel is still connected. -/
theorem GetData_success_keeps_time_out :
    (oneClient 0).IsConnected = true ∧
    (oneClient 0).iConTimeOut = smallCfg.CON_TIME_OUT_CNT_MAX ∧
    ((oneClient 0).GetData smallCfg [] 0).1 = true ∧
    (GetDataN smallCfg (fun _ => 0) [] 1 (oneClient 0)).iConTimeOut = (oneClient 0).iConTimeOut ∧
    (GetDataN smallCfg (fun _ => 0) [] 2 (oneClient 0)).IsConnected = true := by
  decide

/-- C10 amended: a `GetData` call decrements the time-out (by exactly one)
exactly when the jitter buffer underruns and the time-out is positive.  So if
each of `k` successive `GetData` calls, with no other call in between,
underruns, and `k` is at most the time-out `T` at the start, then the time-out
afterwards is `T - k`; while `k < T` the channel is still connected and its
drift estimator untouched, and at `k = T` (in particular after
`CON_TIME_OUT_CNT_MAX` underruns from a time-out of `CON_TIME_OUT_CNT_MAX`)
the channel is disconnected and the drift estimator is the freshly
initialised one of that last call. -/
theorem GetDataN_underrun (cfg : Config) (E : Ext) (clock : Nat → Int) (d : List ℚ)
    (c : CChannel E) (k : Nat) (hk : (k : Int) ≤ c.iConTimeOut)
    (hunder : ∀ j, j < k → (E.sockGet (GetDataN cfg clock d j c).SockBuf d).1 = false) :
    (∀ (c0 : CChannel E) (now : Int),
      (c0.GetData cfg d now).2.2.iConTimeOut =
        if (E.sockGet c0.SockBuf d).1 = false ∧ 0 < c0.iConTimeOut then c0.iConTimeOut - 1
        else c0.iConTimeOut) ∧
    (GetDataN cfg clock d k c).iConTimeOut = c.iConTimeOut - (k : Int) ∧
    ((k : Int) < c.iConTimeOut →
      (GetDataN cfg clock d k c).IsConnected = true ∧
      (GetDataN cfg clock d k c).SampleOffsetEst = c.SampleOffsetEst) ∧
    (0 < k → (k : Int) = c.iConTimeOut →
      (GetDataN cfg clock d k c).IsConnected = false ∧
      (GetDataN cfg clock d k c).SampleOffsetEst = CSampleOffsetEst.Init cfg (clock (k - 1))) := by
  have hstep : ∀ k : Nat, (k : Int) ≤ c.iConTimeOut →
      (∀ j, j < k → (E.sockGet (GetDataN cfg clock d j c).SockBuf d).1 = false) →
      (GetDataN cfg clock d k c).iConTimeOut = c.iConTimeOut - (k : Int) ∧
      ((k : Int) < c.iConTimeOut → (GetDataN cfg clock d k c).SampleOffsetEst = c.SampleOffsetEst) ∧
      (0 < k → (k : Int) = c.iConTimeOut →
        (GetDataN cfg clock d k c).SampleOffsetEst = CSampleOffsetEst.Init cfg (clock (k - 1))) := by
    intro k
    induction k with
    | zero =>
      intro _ _
      refine ⟨by simp [GetDataN], fun _ => rfl, fun h => absurd h (Nat.lt_irrefl 0)⟩
    | succ m ih =>
      intro hm hu
      have hm1 : (m : Int) < c.iConTimeOut := by push_cast at hm; omega
      obtain ⟨iht, ihe, _⟩ := ih (by omega) (fun j hj => hu j (by omega))
      have hum := hu m (Nat.lt_succ_self m)
      have hpos : 0 < (GetDataN cfg clock d m c).iConTimeOut := by rw [iht]; omega
      have hT : (GetDataN cfg clock d (m + 1) c).iConTimeOut
          = c.iConTimeOut - ((m + 1 : Nat) : Int) := by
        show ((GetDataN cfg clock d m c).GetData cfg d (clock m)).2.2.iConTimeOut = _
        rw [CChannel.GetData_iConTimeOut, if_pos ⟨hum, hpos⟩, iht]
        push_cast
        omega
      refine ⟨hT, ?_, ?_⟩
      · intro hlt
        show ((GetDataN cfg clock d m c).GetData cfg d (clock m)).2.2.SampleOffsetEst = _
        rw [CChannel.GetData_SampleOffsetEst, if_neg, ihe hm1]
        rw [iht]
        push_cast at hlt
        omega
      · intro _ heq
        show ((GetDataN cfg clock d m c).GetData cfg d (clock m)).2.2.SampleOffsetEst = _
        rw [CChannel.GetData_SampleOffsetEst, if_pos]
        · simp
        · refine ⟨hum, hpos, ?_⟩
          rw [iht]
          push_cast at heq
          omega
  obtain ⟨h1, h2, h3⟩ := hstep k hk hunder
  refine ⟨fun c0 now => CChannel.GetData_iConTimeOut cfg c0 d now, h1, ?_, ?_⟩
  · intro hlt
    refine ⟨?_, h2 hlt⟩
    unfold CChannel.IsConnected
    rw [h1]
    exact decide_eq_true (by omega)
  · intro hpos heq
    refine ⟨?_, h3 hpos heq⟩
    unfold CChannel.IsConnected
    rw [h1]
    exact decide_eq_false (by omega)

/-- Witness for the amended C10: the drained channel (time-out 2, empty jitter
buffer) is connected after one `GetData` call and disconnected after two. -/
theorem GetDataN_underrun_witness :
    drainedClient.iConTimeOut = smallCfg.CON_TIME_OUT_CNT_MAX ∧
    (∀ j, j < 2 →
      (fifoExt.sockGet (GetDataN smallCfg (fun _ => 0) [] j drainedClient).SockBuf []).1 = false) ∧
    (GetDataN smallCfg (fun _ => 0) [] 1 drainedClient).IsConnected = true ∧
    (GetDataN smallCfg (fun _ => 0) [] 2 drainedClient).IsConnected = false :=
  ⟨by decide, by decide,
   ((GetDataN_underrun smallCfg fifoExt (fun _ => 0) [] drainedClient 1 (by decide)
      (by decide)).2.2.1 (by decide)).1,
   ((GetDataN_underrun smallCfg fifoExt (fun _ => 0) [] drainedClient 2 (by decide)
      (by decide)).2.2.2 (by decide) (by decide)).1⟩

/-! ## C11: the audio pass over all slots -/

/-- The loop variables of `GetBlockAllConC` after `n` iterations: the first `n`
slots have had their `GetData` call, and the outputs list the ones among them
that are connected after it, with the frames pulled for them. -/
theorem GetBlock_fold (cfg : Config) {E : Ext} (v : CChannelSet E) (clock : Nat → Int)
    (n : Nat) :
    ((List.range n).foldl (fun s i => GetBlockStep cfg (clock i) s i)
        { vecChannels := v
          vecdData := List.replicate cfg.BLOCK_SIZE_SAMPLES 0
          vecChanID := []
          vecvecdData := []
          posted := [] }).vecChannels
      = (fun i => if i < n then (GetBlockSlot cfg v clock i).2.2 else v i) ∧
    ((List.range n).foldl (fun s i => GetBlockStep cfg (clock i) s i)
        { vecChannels := v
          vecdData := List.replicate cfg.BLOCK_SIZE_SAMPLES 0
          vecChanID := []
          vecvecdData := []
          posted := [] }).vecdData = GetBlockBuf cfg v clock n ∧
    ((List.range n).foldl (fun s i => GetBlockStep cfg (clock i) s i)
        { vecChannels := v
          vecdData := List.replicate cfg.BLOCK_SIZE_SAMPLES 0
          vecChanID := []
          vecvecdData := []
          posted := [] }).vecChanID
      = ((List.range n).filter
          (fun i => (GetBlockSlot cfg v clock i).2.2.IsConnected)).map (fun i : Nat => (i : Int)) ∧
    ((List.range n).foldl (fun s i => GetBlockStep cfg (clock i) s i)
        { vecChannels := v
          vecdData := List.replicate cfg.BLOCK_SIZE_SAMPLES 0
          vecChanID := []
          vecvecdData := []
          posted := [] }).vecvecdData
      = ((List.range n).filter
          (fun i => (GetBlockSlot cfg v clock i).2.2.IsConnected)).map
          (fun i => (GetBlockSlot cfg v clock i).2.1) := by
  induction n with
  | zero =>
    refine ⟨?_, rfl, rfl, rfl⟩
    funext i
    simp
  | succ m ih =>
    rw [List.range_succ, List.foldl_append]
    simp only [List.foldl_cons, List.foldl_nil]
    generalize ((List.range m).foldl (fun s i => GetBlockStep cfg (clock i) s i)
        ({ vecChannels := v
           vecdData := List.replicate cfg.BLOCK_SIZE_SAMPLES 0
           vecChanID := []
           vecvecdData := []
           posted := [] } : GetBlockState E)) = s at ih ⊢
    obtain ⟨h1, h2, h3, h4⟩ := ih
    have hsm : s.vecChannels m = v m := by rw [h1]; simp
    have hg : (s.vecChannels m).GetData cfg s.vecdData (clock m) = GetBlockSlot cfg v clock m := by
      rw [hsm, h2]; rfl
    have htab : Function.update s.vecChannels m (GetBlockSlot cfg v clock m).2.2
        = (fun i => if i < m + 1 then (GetBlockSlot cfg v clock i).2.2 else v i) := by
      funext i
      by_cases him : i = m
      · subst him; simp
      · rw [Function.update_noteq him, h1]
        by_cases hlt : i < m
        · simp [hlt, Nat.lt_succ_of_lt hlt]
        · have : ¬ i < m + 1 := by omega
          simp [hlt, this]
    have hbuf : (GetBlockSlot cfg v clock m).2.1 = GetBlockBuf cfg v clock (m + 1) := rfl
    unfold GetBlockStep
    simp only [hg, Function.update_same]
    rw [List.filter_append]
    cases hc : (GetBlockSlot cfg v clock m).2.2.IsConnected with
    | true =>
      simp only [if_true, List.filter_cons, hc, List.filter_nil, List.map_append,
        List.map_cons, List.map_nil]
      exact ⟨htab, hbuf, by rw [h3], by rw [h4]⟩
    | false =>
      simp only [Bool.false_eq_true, if_false, List.filter_cons, hc, List.filter_nil,
        List.append_nil]
      exact ⟨htab, hbuf, h3, h4⟩

/-- C11: `GetBlockAllConC` performs exactly one `GetData` call on every slot
`0..MAX_NUM_CHANNELS-1`, connected or not (slot `i` ends in the state that call
leaves, slots beyond the table are untouched); `vecChanID` is strictly
ascending and holds exactly the indices of the slots that are connected after
their own `GetData` call of this pass; `vecvecdData` has the same length and
its entry `j` is the frame pulled for slot `vecChanID[j]`. -/
theorem GetBlockAllConC_outputs (cfg : Config) (E : Ext) (v : CChannelSet E)
    (clock : Nat → Int) :
    (∀ i, i < cfg.MAX_NUM_CHANNELS →
      (GetBlockAllConC cfg v clock).vecChannels i = (GetBlockSlot cfg v clock i).2.2) ∧
    (∀ i, cfg.MAX_NUM_CHANNELS ≤ i → (GetBlockAllConC cfg v clock).vecChannels i = v i) ∧
    (GetBlockAllConC cfg v clock).vecChanID.Pairwise (fun a b => a < b) ∧
    (∀ x, x ∈ (GetBlockAllConC cfg v clock).vecChanID ↔
      ∃ i : Nat, x = (i : Int) ∧ i < cfg.MAX_NUM_CHANNELS ∧
        ((GetBlockAllConC cfg v clock).vecChannels i).IsConnected = true) ∧
    (GetBlockAllConC cfg v clock).vecvecdData.length
      = (GetBlockAllConC cfg v clock).vecChanID.length ∧
    (∀ j (h1 : j < (GetBlockAllConC cfg v clock).vecChanID.length)
        (h2 : j < (GetBlockAllConC cfg v clock).vecvecdData.length),
      (GetBlockAllConC cfg v clock).vecvecdData[j]
        = (GetBlockSlot cfg v clock ((GetBlockAllConC cfg v clock).vecChanID[j]).toNat).2.1) := by
  obtain ⟨h1, _, h3, h4⟩ := GetBlock_fold cfg v clock cfg.MAX_NUM_CHANNELS
  have htab : (GetBlockAllConC cfg v clock).vecChannels
      = (fun i => if i < cfg.MAX_NUM_CHANNELS then (GetBlockSlot cfg v clock i).2.2 else v i) := h1
  have hid : (GetBlockAllConC cfg v clock).vecChanID
      = ((List.range cfg.MAX_NUM_CHANNELS).filter
          (fun i => (GetBlockSlot cfg v clock i).2.2.IsConnected)).map
          (fun i : Nat => (i : Int)) := h3
  have hdat : (GetBlockAllConC cfg v clock).vecvecdData
      = ((List.range cfg.MAX_NUM_CHANNELS).filter
          (fun i => (GetBlockSlot cfg v clock i).2.2.IsConnected)).map
          (fun i => (GetBlockSlot cfg v clock i).2.1) := h4
  refine ⟨?_, ?_, ?_, ?_, ?_, ?_⟩
  · intro i hi
    rw [htab]; simp [hi]
  · intro i hi
    have : ¬ i < cfg.MAX_NUM_CHANNELS := by omega
    rw [htab]; simp [this]
  · rw [hid]
    refine List.Pairwise.map _ (fun a b hab => ?_)
      (List.Pairwise.filter _ (List.pairwise_lt_range cfg.MAX_NUM_CHANNELS))
    exact_mod_cast hab
  · intro x
    rw [hid, htab]
    simp only [List.mem_map, List.mem_filter, List.mem_range]
    constructor
    · rintro ⟨i, ⟨hi, hc⟩, rfl⟩
      exact ⟨i, rfl, hi, by simpa [hi] using hc⟩
    · rintro ⟨i, rfl, hi, hc⟩
      exact ⟨i, ⟨hi, by simpa [hi] using hc⟩, rfl⟩
  · rw [hid, hdat, List.length_map, List.length_map]
  · intro j hj1 hj2
    simp only [hid, hdat, List.getElem_map, Int.toNat_ofNat]

/-- Witness for C11: on the table with clients 7 and 8 (one frame each in the
jitter buffers) the pass reports the slots 0 and 1. -/
theorem GetBlockAllConC_outputs_witness :
    (twoClients 0).IsConnected = true ∧
    (GetBlockAllConC smallCfg twoClients (fun _ => 0)).vecChanID = [0, 1] ∧
    (GetBlockAllConC smallCfg twoClients (fun _ => 0)).vecChanID.Pairwise (fun a b => a < b) ∧
    (GetBlockAllConC smallCfg twoClients (fun _ => 0)).vecChannels 0
      = (GetBlockSlot smallCfg twoClients (fun _ => 0) 0).2.2 :=
  have h := GetBlockAllConC_outputs smallCfg fifoExt twoClients (fun _ => 0)
  ⟨by decide, by decide, h.2.2.1, h.1 0 (by decide)⟩

/-! ## C12: the time stamp schedule -/

theorem CChannel.GetTimeStampIdx_wait (cfg : Config) {E : Ext} (c : CChannel E)
    (h : 0 < c.iTimeStampActCnt) :
    (c.GetTimeStampIdx cfg).1 = cfg.INVALID_TIME_STAMP_IDX ∧
    (c.GetTimeStampIdx cfg).2.iTimeStampActCnt = c.iTimeStampActCnt - 1 ∧
    (c.GetTimeStampIdx cfg).2.byTimeStampIdxCnt = c.byTimeStampIdxCnt := by
  unfold CChannel.GetTimeStampIdx
  rw [if_pos h]
  exact ⟨rfl, rfl, rfl⟩

theorem CChannel.GetTimeStampIdx_emit (cfg : Config) {E : Ext} (c : CChannel E)
    (h : ¬ 0 < c.iTimeStampActCnt) :
    (c.GetTimeStampIdx cfg).1 = (((c.byTimeStampIdxCnt + 1) % 256 : Nat) : Int) ∧
    (c.GetTimeStampIdx cfg).2.iTimeStampActCnt = cfg.NUM_BL_TIME_STAMPS - 1 ∧
    (c.GetTimeStampIdx cfg).2.byTimeStampIdxCnt = (c.byTimeStampIdxCnt + 1) % 256 := by
  unfold CChannel.GetTimeStampIdx
  rw [if_neg h]
  exact ⟨rfl, rfl, rfl⟩

/-- After `k ≥ 1` calls on a fresh channel, with `k = q * N + r + 1` and `r < N`:
the countdown is `N - 1 - r` and the index counter is `q mod 256`. -/
theorem GetTimeStampIdxState_inv (cfg : Config) (E : Ext) (now : Int) (N : Nat)
    (hN : cfg.NUM_BL_TIME_STAMPS = (N : Int)) (h1 : 1 ≤ N) (k : Nat) (hk : 1 ≤ k) :
    ∃ q r, r < N ∧ k = q * N + r + 1 ∧
      (GetTimeStampIdxState cfg (CChannel.new cfg E now) k).iTimeStampActCnt
        = (N : Int) - 1 - (r : Int) ∧
      (GetTimeStampIdxState cfg (CChannel.new cfg E now) k).byTimeStampIdxCnt = q % 256 := by
  induction k with
  | zero => omega
  | succ j ih =>
    by_cases hj : j = 0
    · subst hj
      refine ⟨0, 0, by omega, by omega, ?_, ?_⟩
      · show ((CChannel.new cfg E now).GetTimeStampIdx cfg).2.iTimeStampActCnt = _
        have h0 : 0 < (CChannel.new cfg E now).iTimeStampActCnt := by
          show 0 < cfg.NUM_BL_TIME_STAMPS
          omega
        rw [(CChannel.GetTimeStampIdx_wait cfg _ h0).2.1]
        show cfg.NUM_BL_TIME_STAMPS - 1 = _
        omega
      · show ((CChannel.new cfg E now).GetTimeStampIdx cfg).2.byTimeStampIdxCnt = _
        have h0 : 0 < (CChannel.new cfg E now).iTimeStampActCnt := by
          show 0 < cfg.NUM_BL_TIME_STAMPS
          omega
        rw [(CChannel.GetTimeStampIdx_wait cfg _ h0).2.2]
        rfl
    · obtain ⟨q, r, hr, hjq, hcnt, hidx⟩ := ih (by omega)
      by_cases hlast : r + 1 < N
      · have h0 : 0 < (GetTimeStampIdxState cfg (CChannel.new cfg E now) j).iTimeStampActCnt := by
          rw [hcnt]; omega
        obtain ⟨_, hc, hi⟩ := CChannel.GetTimeStampIdx_wait cfg _ h0
        refine ⟨q, r + 1, hlast, by omega, ?_, ?_⟩
        · show ((GetTimeStampIdxState cfg (CChannel.new cfg E now) j).GetTimeStampIdx
            cfg).2.iTimeStampActCnt = _
          rw [hc, hcnt]; push_cast; omega
        · show ((GetTimeStampIdxState cfg (CChannel.new cfg E now) j).GetTimeStampIdx
            cfg).2.byTimeStampIdxCnt = _
          rw [hi, hidx]
      · have h0 : ¬ 0 < (GetTimeStampIdxState cfg (CChannel.new cfg E now)
            j).iTimeStampActCnt := by
          rw [hcnt]; omega
        obtain ⟨_, hc, hi⟩ := CChannel.GetTimeStampIdx_emit cfg _ h0
        refine ⟨q + 1, 0, by omega, ?_, ?_, ?_⟩
        · rw [Nat.add_mul]; omega
        · show ((GetTimeStampIdxState cfg (CChannel.new cfg E now) j).GetTimeStampIdx
            cfg).2.iTimeStampActCnt = _
          rw [hc, hN]; push_cast; omega
        · show ((GetTimeStampIdxState cfg (CChannel.new cfg E now) j).GetTimeStampIdx
            cfg).2.byTimeStampIdxCnt = _
          rw [hi, hidx]; omega

/-- C12: on a freshly constructed channel, with `N = NUM_BL_TIME_STAMPS ≥ 1`,
call number `k ≥ 1` of `GetTimeStampIdx` returns an index exactly when
`k = m * N + 1` for some `m ≥ 1`, and that index is `m mod 256`; every other
call returns `INVALID_TIME_STAMP_IDX`. -/
theorem GetTimeStampIdx_schedule (cfg : Config) (E : Ext) (now : Int) (N : Nat)
    (hN : cfg.NUM_BL_TIME_STAMPS = (N : Int)) (h1 : 1 ≤ N) (k : Nat) (hk : 1 ≤ k) :
    (∀ m, 1 ≤ m → k = m * N + 1 →
      GetTimeStampIdxRet cfg (CChannel.new cfg E now) k = ((m % 256 : Nat) : Int)) ∧
    ((¬ ∃ m, 1 ≤ m ∧ k = m * N + 1) →
      GetTimeStampIdxRet cfg (CChannel.new cfg E now) k = cfg.INVALID_TIME_STAMP_IDX) := by
  unfold GetTimeStampIdxRet
  by_cases hk1 : k = 1
  · subst hk1
    have h0 : 0 < (CChannel.new cfg E now).iTimeStampActCnt := by
      show 0 < cfg.NUM_BL_TIME_STAMPS
      omega
    constructor
    · intro m hm hkm
      have hpos : 0 < m * N := Nat.mul_pos (by omega) (by omega)
      omega
    · intro _
      exact (CChannel.GetTimeStampIdx_wait cfg _ h0).1
  · obtain ⟨q, r, hr, hjq, hcnt, hidx⟩ :=
      GetTimeStampIdxState_inv cfg E now N hN h1 (k - 1) (by omega)
    by_cases hlast : r + 1 < N
    · have h0 : 0 < (GetTimeStampIdxState cfg (CChannel.new cfg E now)
          (k - 1)).iTimeStampActCnt := by
        rw [hcnt]; omega
      constructor
      · intro m hm hkm
        exfalso
        rcases Nat.lt_or_ge q m with hqm | hqm
        · have h2 : (q + 1) * N ≤ m * N := Nat.mul_le_mul_right N hqm
          rw [Nat.add_mul] at h2
          omega
        · have h2 : m * N ≤ q * N := Nat.mul_le_mul_right N hqm
          omega
      · intro _
        exact (CChannel.GetTimeStampIdx_wait cfg _ h0).1
    · have h0 : ¬ 0 < (GetTimeStampIdxState cfg (CChannel.new cfg E now)
          (k - 1)).iTimeStampActCnt := by
        rw [hcnt]; omega
      have hkq : k = (q + 1) * N + 1 := by rw [Nat.add_mul]; omega
      constructor
      · intro m hm hkm
        have hmq : m = q + 1 := by
          have h2 : m * N = (q + 1) * N := by omega
          exact Nat.eq_of_mul_eq_mul_right (by omega) h2
        rw [(CChannel.GetTimeStampIdx_emit cfg _ h0).1, hidx, hmq]
        congr 1
        omega
      · intro hno
        exact absurd ⟨q + 1, by omega, hkq⟩ hno

/-- Witness for C12 on the small configuration (`N = 3`): call 4 is the first to
return an index, namely 1. -/
theorem GetTimeStampIdx_schedule_witness :
    smallCfg.NUM_BL_TIME_STAMPS = ((3 : Nat) : Int) ∧
    GetTimeStampIdxRet smallCfg (CChannel.new smallCfg fifoExt 0) 4 = 1 ∧
    GetTimeStampIdxRet smallCfg (CChannel.new smallCfg fifoExt 0) 3
      = smallCfg.INVALID_TIME_STAMP_IDX :=
  ⟨by decide,
   (GetTimeStampIdx_schedule smallCfg fifoExt 0 3 (by decide) (by decide) 4 (by decide)).1 1
      (by decide) (by decide),
   (GetTimeStampIdx_schedule smallCfg fifoExt 0 3 (by decide) (by decide) 3 (by decide)).2
      (by
        rintro ⟨m, hm, h⟩
        omega)⟩

/-! ## The FIFO of the drift estimator -/

theorem getD_set (v : List Int) (m : Nat) (x : Int) (i : Nat) (h : m < v.length) :
    (v.set m x).getD i 0 = if i = m then x else v.getD i 0 := by
  simp only [List.getD_eq_getElem?_getD, List.getElem?_set]
  by_cases him : i = m
  · subst him; simp [h]
  · have : ¬ m = i := fun h => him h.symm
    simp [him, this]

/-- After `m` steps of the shifting loop the first `m` entries hold their right
neighbours and the rest is untouched. -/
theorem fifoShift_steps (v : List Int) (m : Nat) (hm : m + 1 ≤ v.length) :
    ((List.range m).foldl (fun w k => w.set k (w.getD (k + 1) 0)) v).length = v.length ∧
    ∀ i, ((List.range m).foldl (fun w k => w.set k (w.getD (k + 1) 0)) v).getD i 0
      = if i < m then v.getD (i + 1) 0 else v.getD i 0 := by
  induction m with
  | zero => simp
  | succ k ih =>
    obtain ⟨hl, hg⟩ := ih (by omega)
    rw [List.range_succ, List.foldl_append]
    simp only [List.foldl_cons, List.foldl_nil]
    refine ⟨by rw [List.length_set, hl], ?_⟩
    intro i
    rw [getD_set _ _ _ _ (by rw [hl]; omega), hg (k + 1), hg i]
    by_cases hik : i = k
    · subst hik; simp
    · by_cases hlt : i < k
      · have : i < k + 1 := by omega
        simp [hik, hlt, this]
      · have : ¬ i < k + 1 := by omega
        simp [hik, hlt, this]

/-- Shifting the FIFO and storing `x` in the last place: entry `i` becomes the
old entry `i + 1`, the last entry becomes `x`. -/
theorem fifo_push (n : Nat) (v : List Int) (x : Int) (hn : 1 ≤ n) (hv : v.length = n) :
    ((fifoShift n v).set (n - 1) x).length = n ∧
    ∀ i, i < n → ((fifoShift n v).set (n - 1) x).getD i 0
      = if i + 1 < n then v.getD (i + 1) 0 else x := by
  obtain ⟨hl, hg⟩ := fifoShift_steps v (n - 1) (by omega)
  unfold fifoShift
  refine ⟨by rw [List.length_set, hl, hv], ?_⟩
  intro i hi
  rw [getD_set _ _ _ _ (by rw [hl]; omega), hg i]
  by_cases hlast : i = n - 1
  · have : ¬ i + 1 < n := by omega
    rw [if_pos hlast, if_neg this]
  · have h1 : i + 1 < n := by omega
    have h2 : i < n - 1 := by omega
    rw [if_neg hlast, if_pos h2, if_pos h1]

/-- The members of the estimator after `AddTimeStampIdx`. -/
theorem CSampleOffsetEst.AddTimeStampIdx_fields (cfg : Config) (E : Ext)
    (s : CSampleOffsetEst) (r now : Int) :
    (s.AddTimeStampIdx cfg E r now).iAccTiStVal
      = (if r < wrapInt (s.tail cfg - s.iAccTiStVal) then wrapInt (s.iAccTiStVal + 256)
         else s.iAccTiStVal) ∧
    (s.AddTimeStampIdx cfg E r now).veciTiStIdx
      = (fifoShift cfg.VEC_LEN_SAM_OFFS_EST s.veciTiStIdx).set (cfg.VEC_LEN_SAM_OFFS_EST - 1)
          (wrapInt ((if r < wrapInt (s.tail cfg - s.iAccTiStVal) then
                        wrapInt (s.iAccTiStVal + 256)
                     else s.iAccTiStVal) + r)) ∧
    (s.AddTimeStampIdx cfg E r now).veciTimeElapsed
      = (fifoShift cfg.VEC_LEN_SAM_OFFS_EST s.veciTimeElapsed).set
          (cfg.VEC_LEN_SAM_OFFS_EST - 1) (E.elapsed s.RefTime now) ∧
    (s.AddTimeStampIdx cfg E r now).RefTime = s.RefTime ∧
    (s.AddTimeStampIdx cfg E r now).iInitCnt
      = (if 0 < s.iInitCnt then s.iInitCnt - 1 else s.iInitCnt) ∧
    (s.AddTimeStampIdx cfg E r now).dSamRateEst
      = (if 0 < s.iInitCnt then s.dSamRateEst
         else regressionEst cfg (s.AddTimeStampIdx cfg E r now).veciTimeElapsed
                (s.AddTimeStampIdx cfg E r now).veciTiStIdx) := by
  unfold CSampleOffsetEst.AddTimeStampIdx CSampleOffsetEst.tail regressionEst regression _MAXBYTE
  simp only
  by_cases h : 0 < s.iInitCnt
  · simp only [if_pos h]
    repeat' constructor
  · simp only [if_neg h]
    repeat' constructor

/-! ## C13: wrap compensation -/

theorem wrapInt_eq (x : Int) (h1 : -2147483648 ≤ x) (h2 : x < 2147483648) : wrapInt x = x := by
  unfold wrapInt
  omega

/-- One call of `AddTimeStampIdx` with a raw value in `[0, 255]`, on a state
whose FIFO is non-decreasing, whose newest entry exceeds the accumulator by a
byte value (the previous raw value), and whose accumulator leaves room for
this call in the `int` range. -/
theorem AddTimeStampIdx_step (cfg : Config) (E : Ext) (s : CSampleOffsetEst) (r now : Int)
    (h1 : 1 ≤ cfg.VEC_LEN_SAM_OFFS_EST)
    (hlen : s.veciTiStIdx.length = cfg.VEC_LEN_SAM_OFFS_EST)
    (hs : NonDecreasing cfg.VEC_LEN_SAM_OFFS_EST s.veciTiStIdx)
    (hlo : 0 ≤ s.tail cfg - s.iAccTiStVal) (hhi : s.tail cfg - s.iAccTiStVal ≤ 255)
    (hr0 : 0 ≤ r) (hr1 : r ≤ 255) (ha0 : 0 ≤ s.iAccTiStVal)
    (hb : (if r < s.tail cfg - s.iAccTiStVal then s.iAccTiStVal + 256 else s.iAccTiStVal) + 255
            < 2147483648) :
    (s.AddTimeStampIdx cfg E r now).veciTiStIdx.length = cfg.VEC_LEN_SAM_OFFS_EST ∧
    NonDecreasing cfg.VEC_LEN_SAM_OFFS_EST (s.AddTimeStampIdx cfg E r now).veciTiStIdx ∧
    (s.AddTimeStampIdx cfg E r now).tail cfg - (s.AddTimeStampIdx cfg E r now).iAccTiStVal = r ∧
    s.tail cfg ≤ (s.AddTimeStampIdx cfg E r now).tail cfg ∧
    (r ≠ s.tail cfg - s.iAccTiStVal → s.tail cfg < (s.AddTimeStampIdx cfg E r now).tail cfg) ∧
    (r = (s.tail cfg - s.iAccTiStVal + 1) % 256 →
      (s.AddTimeStampIdx cfg E r now).tail cfg = s.tail cfg + 1) ∧
    (s.AddTimeStampIdx cfg E r now).iAccTiStVal
      = (if r < s.tail cfg - s.iAccTiStVal then s.iAccTiStVal + 256 else s.iAccTiStVal) := by
  obtain ⟨hacc, hidx, _⟩ := CSampleOffsetEst.AddTimeStampIdx_fields cfg E s r now
  have hw1 : wrapInt (s.tail cfg - s.iAccTiStVal) = s.tail cfg - s.iAccTiStVal :=
    wrapInt_eq _ (by omega) (by omega)
  have hw2 : (if r < wrapInt (s.tail cfg - s.iAccTiStVal) then wrapInt (s.iAccTiStVal + 256)
        else s.iAccTiStVal)
      = (if r < s.tail cfg - s.iAccTiStVal then s.iAccTiStVal + 256 else s.iAccTiStVal) := by
    rw [hw1]
    by_cases hlt : r < s.tail cfg - s.iAccTiStVal
    · rw [if_pos hlt] at hb
      rw [if_pos hlt, if_pos hlt, wrapInt_eq _ (by omega) (by omega)]
    · rw [if_neg hlt, if_neg hlt]
  have hw3 : wrapInt ((if r < s.tail cfg - s.iAccTiStVal then s.iAccTiStVal + 256
        else s.iAccTiStVal) + r)
      = (if r < s.tail cfg - s.iAccTiStVal then s.iAccTiStVal + 256 else s.iAccTiStVal) + r := by
    refine wrapInt_eq _ ?_ ?_
    · split_ifs <;> omega
    · omega
  rw [hw2] at hacc hidx
  rw [hw3] at hidx
  obtain ⟨hl, hg⟩ := fifo_push cfg.VEC_LEN_SAM_OFFS_EST s.veciTiStIdx
    ((if r < s.tail cfg - s.iAccTiStVal then s.iAccTiStVal + 256 else s.iAccTiStVal) + r)
    h1 hlen
  rw [← hidx] at hl hg
  have htail : (s.AddTimeStampIdx cfg E r now).tail cfg
      = (if r < s.tail cfg - s.iAccTiStVal then s.iAccTiStVal + 256 else s.iAccTiStVal) + r := by
    have := hg (cfg.VEC_LEN_SAM_OFFS_EST - 1) (by omega)
    rw [if_neg (by omega)] at this
    exact this
  have hle : s.tail cfg ≤ (s.AddTimeStampIdx cfg E r now).tail cfg := by
    rw [htail]; split_ifs <;> omega
  refine ⟨hl, ?_, ?_, hle, ?_, ?_, hacc⟩
  · intro i j hij hj
    rw [hg i (by omega), hg j hj]
    by_cases hj1 : j + 1 < cfg.VEC_LEN_SAM_OFFS_EST
    · rw [if_pos hj1, if_pos (by omega)]
      exact hs (i + 1) (j + 1) (by omega) hj1
    · rw [if_neg hj1]
      by_cases hi1 : i + 1 < cfg.VEC_LEN_SAM_OFFS_EST
      · rw [if_pos hi1, ← htail]
        exact le_trans (hs (i + 1) (cfg.VEC_LEN_SAM_OFFS_EST - 1) (by omega) (by omega)) hle
      · rw [if_neg hi1]
  · rw [htail, hacc]; omega
  · intro hne
    rw [htail]; split_ifs <;> omega
  · intro hmod
    rw [htail]; split_ifs <;> omega

theorem descents_append (l1 l2 : List Int) :
    ∀ prev : Int, descents prev (l1 ++ l2) = descents prev l1 + descents (l1.getLastD prev) l2 := by
  induction l1 with
  | nil => intro prev; simp [descents]
  | cons a l ih =>
    intro prev
    rw [List.cons_append, descents, descents, ih a, List.getLastD_cons]
    omega

theorem Init_inv (cfg : Config) (now : Int) :
    (CSampleOffsetEst.Init cfg now).veciTiStIdx.length = cfg.VEC_LEN_SAM_OFFS_EST ∧
    NonDecreasing cfg.VEC_LEN_SAM_OFFS_EST (CSampleOffsetEst.Init cfg now).veciTiStIdx ∧
    (CSampleOffsetEst.Init cfg now).tail cfg = 0 ∧
    (CSampleOffsetEst.Init cfg now).iAccTiStVal = 0 := by
  have hz : ∀ i, (List.replicate cfg.VEC_LEN_SAM_OFFS_EST (0 : Int)).getD i 0 = 0 := by
    intro i
    rw [List.getD_eq_getElem?_getD]
    by_cases hi : i < cfg.VEC_LEN_SAM_OFFS_EST
    · simp [List.getElem?_replicate, hi]
    · simp [List.getElem?_replicate, hi]
  refine ⟨by simp [CSampleOffsetEst.Init], ?_, hz _, rfl⟩
  intro i j _ _
  show (List.replicate cfg.VEC_LEN_SAM_OFFS_EST (0 : Int)).getD i 0
    ≤ (List.replicate cfg.VEC_LEN_SAM_OFFS_EST (0 : Int)).getD j 0
  rw [hz i, hz j]

theorem AddTimeStampIdxSeq_append (cfg : Config) (E : Ext) (s : CSampleOffsetEst)
    (xs ys : List (Int × Int)) :
    AddTimeStampIdxSeq cfg E s (xs ++ ys)
      = AddTimeStampIdxSeq cfg E (AddTimeStampIdxSeq cfg E s xs) ys := by
  unfold AddTimeStampIdxSeq
  rw [List.foldl_append]

/-- The FIFO invariant along a sequence of calls with raw values in `[0, 255]`:
as long as fewer than 2^23 wrap compensations have been made in all, the
accumulator is 256 times their number and the newest entry is the accumulator
plus the last raw value. -/
theorem AddTimeStampIdxSeq_inv (cfg : Config) (E : Ext) (h1 : 1 ≤ cfg.VEC_LEN_SAM_OFFS_EST)
    (xs : List (Int × Int)) :
    ∀ (s : CSampleOffsetEst) (w : Nat) (prev : Int),
      s.veciTiStIdx.length = cfg.VEC_LEN_SAM_OFFS_EST →
      NonDecreasing cfg.VEC_LEN_SAM_OFFS_EST s.veciTiStIdx →
      s.iAccTiStVal = 256 * (w : Int) → s.tail cfg = s.iAccTiStVal + prev →
      0 ≤ prev → prev ≤ 255 →
      (∀ x ∈ xs, 0 ≤ x.1 ∧ x.1 ≤ 255) →
      w + descents prev (xs.map Prod.fst) < 8388608 →
      (AddTimeStampIdxSeq cfg E s xs).veciTiStIdx.length = cfg.VEC_LEN_SAM_OFFS_EST ∧
      NonDecreasing cfg.VEC_LEN_SAM_OFFS_EST (AddTimeStampIdxSeq cfg E s xs).veciTiStIdx ∧
      (AddTimeStampIdxSeq cfg E s xs).iAccTiStVal
        = 256 * ((w + descents prev (xs.map Prod.fst) : Nat) : Int) ∧
      (AddTimeStampIdxSeq cfg E s xs).tail cfg
        = (AddTimeStampIdxSeq cfg E s xs).iAccTiStVal + (xs.map Prod.fst).getLastD prev ∧
      0 ≤ (xs.map Prod.fst).getLastD prev ∧ (xs.map Prod.fst).getLastD prev ≤ 255 := by
  induction xs with
  | nil =>
    intro s w prev hlen hs hacc htail hp0 hp1 _ _
    exact ⟨hlen, hs, by simpa [descents] using hacc, htail, hp0, hp1⟩
  | cons x xs ih =>
    intro s w prev hlen hs hacc htail hp0 hp1 hx hw
    have hx0 := hx x (List.mem_cons_self _ _)
    have hd : descents prev ((x :: xs).map Prod.fst)
        = (if x.1 < prev then 1 else 0) + descents x.1 (xs.map Prod.fst) := rfl
    rw [hd] at hw
    have hprev : s.tail cfg - s.iAccTiStVal = prev := by omega
    obtain ⟨a, b, c, _, _, _, e⟩ := AddTimeStampIdx_step cfg E s x.1 x.2 h1 hlen hs
      (by omega) (by omega) hx0.1 hx0.2 (by omega)
      (by rw [hprev]; split_ifs at hw ⊢ <;> omega)
    rw [hprev] at e
    have hacc1 : (s.AddTimeStampIdx cfg E x.1 x.2).iAccTiStVal
        = 256 * ((w + (if x.1 < prev then 1 else 0) : Nat) : Int) := by
      rw [e]; split_ifs <;> push_cast <;> omega
    obtain ⟨r1, r2, r3, r4, r5, r6⟩ := ih (s.AddTimeStampIdx cfg E x.1 x.2)
      (w + (if x.1 < prev then 1 else 0)) x.1 a b hacc1 (by omega) hx0.1 hx0.2
      (fun y hy => hx y (List.mem_cons_of_mem _ hy)) (by omega)
    have hunf : AddTimeStampIdxSeq cfg E s (x :: xs)
        = AddTimeStampIdxSeq cfg E (s.AddTimeStampIdx cfg E x.1 x.2) xs := rfl
    have hlast : ((x :: xs).map Prod.fst).getLastD prev = (xs.map Prod.fst).getLastD x.1 := by
      rw [List.map_cons, List.getLastD_cons]
    rw [hunf, hd, hlast]
    refine ⟨r1, r2, ?_, r4, r5, r6⟩
    rw [r3]
    congr 2
    omega

/-- C13 amended: after `Init`, for every sequence of raw time stamp values in
`[0, 255]` fed to `AddTimeStampIdx` (window length at least 1) that calls for
fewer than 2^23 wrap compensations, so that the accumulated index stays in the
32-bit `int` range: the FIFO of accumulated indices keeps its length and is
non-decreasing from oldest to newest after the calls; the first stored value
is the raw value itself; and for the last two raw values `p`, `r` of the
sequence the value stored for `r` is at least the value stored for `p`,
strictly greater when `r ≠ p`, and exactly one more when `r = (p + 1) mod 256`
(so also across the wrap from 255 to 0). -/
theorem wrap_compensation_in_range (cfg : Config) (E : Ext) (now0 : Int)
    (h1 : 1 ≤ cfg.VEC_LEN_SAM_OFFS_EST) (xs : List (Int × Int))
    (hx : ∀ x ∈ xs, 0 ≤ x.1 ∧ x.1 ≤ 255)
    (hw : descents 0 (xs.map Prod.fst) < 8388608) :
    (AddTimeStampIdxSeq cfg E (CSampleOffsetEst.Init cfg now0) xs).veciTiStIdx.length
      = cfg.VEC_LEN_SAM_OFFS_EST ∧
    (AddTimeStampIdxSeq cfg E (CSampleOffsetEst.Init cfg now0) xs).veciTiStIdx.Pairwise
      (fun a b => a ≤ b) ∧
    (∀ p tp : Int, 0 ≤ p → p ≤ 255 →
      (AddTimeStampIdxSeq cfg E (CSampleOffsetEst.Init cfg now0) [(p, tp)]).tail cfg = p) ∧
    (∀ (ys : List (Int × Int)) (p tp r tr : Int), xs = ys ++ [(p, tp), (r, tr)] →
      (AddTimeStampIdxSeq cfg E (CSampleOffsetEst.Init cfg now0) (ys ++ [(p, tp)])).tail cfg
        ≤ (AddTimeStampIdxSeq cfg E (CSampleOffsetEst.Init cfg now0) xs).tail cfg ∧
      (r ≠ p →
        (AddTimeStampIdxSeq cfg E (CSampleOffsetEst.Init cfg now0) (ys ++ [(p, tp)])).tail cfg
          < (AddTimeStampIdxSeq cfg E (CSampleOffsetEst.Init cfg now0) xs).tail cfg) ∧
      (r = (p + 1) % 256 →
        (AddTimeStampIdxSeq cfg E (CSampleOffsetEst.Init cfg now0) xs).tail cfg
          = (AddTimeStampIdxSeq cfg E (CSampleOffsetEst.Init cfg now0)
              (ys ++ [(p, tp)])).tail cfg + 1)) := by
  obtain ⟨i1, i2, i3, i4⟩ := Init_inv cfg now0
  have hinv := fun (zs : List (Int × Int)) => AddTimeStampIdxSeq_inv cfg E h1 zs
    (CSampleOffsetEst.Init cfg now0) 0 0 i1 i2 (by rw [i4]; rfl) (by rw [i3, i4]; rfl)
    (le_refl 0) (by decide)
  obtain ⟨a, b, _, _, _, _⟩ := hinv xs hx (by omega)
  refine ⟨a, ?_, ?_, ?_⟩
  · rw [List.pairwise_iff_getElem]
    intro i j hi hj hij
    have := b i j (by omega) (by omega)
    rwa [List.getD_eq_getElem _ _ hi, List.getD_eq_getElem _ _ hj] at this
  · intro p tp hp0 hp1
    obtain ⟨_, _, e, _, _, _, f⟩ := AddTimeStampIdx_step cfg E (CSampleOffsetEst.Init cfg now0)
      p tp h1 i1 i2 (by rw [i3, i4]; decide) (by rw [i3, i4]; decide) hp0 hp1
      (by rw [i4]) (by rw [i3, i4]; split_ifs <;> omega)
    rw [i3, i4, if_neg (by omega)] at f
    show ((CSampleOffsetEst.Init cfg now0).AddTimeStampIdx cfg E p tp).tail cfg = p
    omega
  · intro ys p tp r tr hxs
    subst hxs
    have hp := hx (p, tp) (by simp)
    have hr := hx (r, tr) (by simp)
    have hmap : (ys ++ [(p, tp), (r, tr)]).map Prod.fst = ys.map Prod.fst ++ [p, r] := by
      simp
    rw [hmap, descents_append] at hw
    have hd2 : descents ((ys.map Prod.fst).getLastD 0) [p, r]
        = (if p < (ys.map Prod.fst).getLastD 0 then 1 else 0)
          + ((if r < p then 1 else 0) + 0) := rfl
    rw [hd2] at hw
    obtain ⟨a0, b0, c0, d0, l0, l1⟩ := hinv ys
      (fun y hy => hx y (List.mem_append_left _ hy)) (by omega)
    have e1 : AddTimeStampIdxSeq cfg E (CSampleOffsetEst.Init cfg now0) (ys ++ [(p, tp)])
        = (AddTimeStampIdxSeq cfg E (CSampleOffsetEst.Init cfg now0) ys).AddTimeStampIdx
            cfg E p tp := by
      rw [AddTimeStampIdxSeq_append]; rfl
    have e2 : AddTimeStampIdxSeq cfg E (CSampleOffsetEst.Init cfg now0)
          (ys ++ [(p, tp), (r, tr)])
        = ((AddTimeStampIdxSeq cfg E (CSampleOffsetEst.Init cfg now0) ys).AddTimeStampIdx
            cfg E p tp).AddTimeStampIdx cfg E r tr := by
      rw [AddTimeStampIdxSeq_append]; rfl
    rw [e1, e2]
    have hprev : (AddTimeStampIdxSeq cfg E (CSampleOffsetEst.Init cfg now0) ys).tail cfg
        - (AddTimeStampIdxSeq cfg E (CSampleOffsetEst.Init cfg now0) ys).iAccTiStVal
        = (ys.map Prod.fst).getLastD 0 := by omega
    obtain ⟨a1, b1, c1, _, _, _, f1⟩ := AddTimeStampIdx_step cfg E _ p tp h1 a0 b0
      (by omega) (by omega) hp.1 hp.2 (by rw [c0]; omega)
      (by rw [hprev, c0]; push_cast; split_ifs at hw ⊢ <;> omega)
    rw [hprev, c0] at f1
    obtain ⟨_, _, _, d2, e2', f2, _⟩ := AddTimeStampIdx_step cfg E _ r tr h1 a1 b1
      (by omega) (by omega) hr.1 hr.2
      (by rw [f1]; push_cast; split_ifs <;> omega)
      (by rw [c1, f1]; push_cast; split_ifs at hw ⊢ <;> omega)
    rw [c1] at e2' f2
    exact ⟨d2, e2', f2⟩

/-- Witness for the amended C13 on the small configuration: after raw values
254, 255 the raw value 0 is stored as one more than its predecessor. -/
theorem wrap_compensation_in_range_witness :
    1 ≤ smallCfg.VEC_LEN_SAM_OFFS_EST ∧
    descents 0 (([(254, 10), (255, 20), (0, 30)] : List (Int × Int)).map Prod.fst) < 8388608 ∧
    (AddTimeStampIdxSeq smallCfg fifoExt (CSampleOffsetEst.Init smallCfg 0)
        [(254, 10), (255, 20), (0, 30)]).tail smallCfg
      = (AddTimeStampIdxSeq smallCfg fifoExt (CSampleOffsetEst.Init smallCfg 0)
          ([(254, 10)] ++ [(255, 20)])).tail smallCfg + 1 :=
  ⟨by decide, by decide,
   ((wrap_compensation_in_range smallCfg fifoExt 0 (by decide)
      [(254, 10), (255, 20), (0, 30)] (by decide) (by decide)).2.2.2
      [(254, 10)] 255 20 0 30 rfl).2.2 (by decide)⟩

/-! ### Overflow of the accumulator -/

/-- The raw values 1, 0 fed to an estimator of the small configuration whose
newest FIFO entry equals its accumulator `A` (with `0 ≤ A` and `A + 1` in the
`int` range): the accumulator becomes `A + 256` reduced to 32 bits, and the
FIFO holds `A`, `A + 1` and the new accumulator. -/
theorem wrap_pair (s : CSampleOffsetEst) (A a b : Int) (hacc : s.iAccTiStVal = A)
    (hidx : s.veciTiStIdx = [a, b, A]) (hA0 : 0 ≤ A) (hA1 : A + 1 < 2147483648) :
    ((s.AddTimeStampIdx smallCfg fifoExt 1 0).AddTimeStampIdx smallCfg fifoExt 0 0).iAccTiStVal
      = wrapInt (A + 256) ∧
    ((s.AddTimeStampIdx smallCfg fifoExt 1 0).AddTimeStampIdx smallCfg fifoExt 0 0).veciTiStIdx
      = [A, A + 1, wrapInt (A + 256)] := by
  have ht : s.tail smallCfg = A := by
    unfold CSampleOffsetEst.tail
    rw [hidx]; rfl
  obtain ⟨c1, d1, _⟩ := CSampleOffsetEst.AddTimeStampIdx_fields smallCfg fifoExt s 1 0
  have hz : wrapInt (A - A) = 0 := by unfold wrapInt; omega
  rw [ht, hacc, hz, if_neg (by decide)] at c1 d1
  rw [hidx, wrapInt_eq _ (by omega) (by omega)] at d1
  have d1' : (s.AddTimeStampIdx smallCfg fifoExt 1 0).veciTiStIdx = [b, A, A + 1] := by
    rw [d1]; rfl
  have ht1 : (s.AddTimeStampIdx smallCfg fifoExt 1 0).tail smallCfg = A + 1 := by
    unfold CSampleOffsetEst.tail
    rw [d1']; rfl
  obtain ⟨c2, d2, _⟩ := CSampleOffsetEst.AddTimeStampIdx_fields smallCfg fifoExt
    (s.AddTimeStampIdx smallCfg fifoExt 1 0) 0 0
  have ho : wrapInt (A + 1 - A) = 1 := by unfold wrapInt; omega
  rw [ht1, c1, ho, if_pos (by decide)] at c2 d2
  have hidem : wrapInt (wrapInt (A + 256) + 0) = wrapInt (A + 256) := by
    unfold wrapInt; omega
  rw [d1', hidem] at d2
  exact ⟨c2, by rw [d2]; rfl⟩

theorem wrapPairs_range (k : Nat) : ∀ x ∈ wrapPairs k, 0 ≤ x.1 ∧ x.1 ≤ 255 := by
  induction k with
  | zero => intro x hx; simp [wrapPairs] at hx
  | succ k ih =>
    intro x hx
    simp only [wrapPairs, List.mem_append, List.mem_cons, List.mem_singleton,
      List.not_mem_nil, or_false] at hx
    rcases hx with h | h | h
    · exact ih x h
    · rw [h]; decide
    · rw [h]; decide

/-- The sequence `wrapPairs k` calls for exactly `k` wrap compensations. -/
theorem wrapPairs_descents (k : Nat) :
    descents 0 ((wrapPairs k).map Prod.fst) = k ∧
    ((wrapPairs k).map Prod.fst).getLastD 0 = 0 := by
  induction k with
  | zero => exact ⟨rfl, rfl⟩
  | succ k ih =>
    have hmap : (wrapPairs (k + 1)).map Prod.fst = (wrapPairs k).map Prod.fst ++ [1, 0] := by
      simp [wrapPairs]
    rw [hmap, descents_append, ih.1, ih.2]
    refine ⟨by simp [descents], ?_⟩
    simp [List.getLastD_eq_getLast?]

theorem wrapPairs_step (k : Nat) :
    AddTimeStampIdxSeq smallCfg fifoExt (CSampleOffsetEst.Init smallCfg 0) (wrapPairs (k + 1))
      = ((AddTimeStampIdxSeq smallCfg fifoExt (CSampleOffsetEst.Init smallCfg 0)
          (wrapPairs k)).AddTimeStampIdx smallCfg fifoExt 1 0).AddTimeStampIdx
          smallCfg fifoExt 0 0 := by
  show AddTimeStampIdxSeq smallCfg fifoExt _ (wrapPairs k ++ [(1, 0), (0, 0)]) = _
  rw [AddTimeStampIdxSeq_append]; rfl

/-- The estimator of the small configuration after `wrapPairs k`, while
`256 * k` is in the `int` range: the accumulator is `256 * k`, and so is the
newest FIFO entry. -/
theorem wrapPairs_state (k : Nat) (hk : 256 * (k : Int) < 2147483648) :
    (AddTimeStampIdxSeq smallCfg fifoExt (CSampleOffsetEst.Init smallCfg 0)
      (wrapPairs k)).iAccTiStVal = 256 * (k : Int) ∧
    ∃ a b, (AddTimeStampIdxSeq smallCfg fifoExt (CSampleOffsetEst.Init smallCfg 0)
      (wrapPairs k)).veciTiStIdx = [a, b, 256 * (k : Int)] := by
  induction k with
  | zero => exact ⟨rfl, 0, 0, rfl⟩
  | succ k ih =>
    push_cast at hk
    obtain ⟨hacc, a, b, hidx⟩ := ih (by omega)
    have hunf := wrapPairs_step k
    obtain ⟨h1, h2⟩ := wrap_pair _ (256 * (k : Int)) a b hacc hidx (by omega) (by omega)
    rw [wrapInt_eq _ (by omega) (by omega)] at h1 h2
    rw [hunf]
    push_cast
    refine ⟨by rw [h1]; ring, 256 * (k : Int), 256 * (k : Int) + 1, ?_⟩
    rw [h2]
    congr 2

/-- C13, as stated, fails: the raw values 1, 0 repeated 2^23 times (all in
`[0, 255]`, 2^23 wrap compensations) drive the `int` accumulator of the
estimator of the small configuration past 2^31 - 1; it wraps to -2^31, and the
FIFO ends decreasing: 2^31 - 256, 2^31 - 255, -2^31. -/
theorem wrap_compensation_overflows :
    1 ≤ smallCfg.VEC_LEN_SAM_OFFS_EST ∧
    (∀ x ∈ wrapPairs 8388608, 0 ≤ x.1 ∧ x.1 ≤ 255) ∧
    descents 0 ((wrapPairs 8388608).map Prod.fst) = 8388608 ∧
    (AddTimeStampIdxSeq smallCfg fifoExt (CSampleOffsetEst.Init smallCfg 0)
      (wrapPairs 8388608)).veciTiStIdx = [2147483392, 2147483393, -2147483648] ∧
    ¬ (AddTimeStampIdxSeq smallCfg fifoExt (CSampleOffsetEst.Init smallCfg 0)
      (wrapPairs 8388608)).veciTiStIdx.Pairwise (fun a b => a ≤ b) := by
  obtain ⟨hacc, a, b, hidx⟩ := wrapPairs_state 8388607 (by norm_num)
  have hunf : AddTimeStampIdxSeq smallCfg fifoExt (CSampleOffsetEst.Init smallCfg 0)
        (wrapPairs 8388608)
      = ((AddTimeStampIdxSeq smallCfg fifoExt (CSampleOffsetEst.Init smallCfg 0)
          (wrapPairs 8388607)).AddTimeStampIdx smallCfg fifoExt 1 0).AddTimeStampIdx
          smallCfg fifoExt 0 0 := wrapPairs_step 8388607
  have hA : (256 : Int) * ((8388607 : Nat) : Int) = 2147483392 := by norm_num
  rw [hA] at hacc hidx
  obtain ⟨_, h2⟩ := wrap_pair _ 2147483392 a b hacc hidx (by decide) (by decide)
  have hfifo : (AddTimeStampIdxSeq smallCfg fifoExt (CSampleOffsetEst.Init smallCfg 0)
      (wrapPairs 8388608)).veciTiStIdx = [2147483392, 2147483393, -2147483648] := by
    rw [hunf, h2]
    decide
  refine ⟨by decide, wrapPairs_range 8388608, (wrapPairs_descents 8388608).1, hfifo, ?_⟩
  rw [hfifo]
  decide

/-! ## C14: warm-up -/

/-- While the warm-up counter covers the calls, the estimate is not touched and
the counter goes down by one per call. -/
theorem AddTimeStampIdxSeq_warm (cfg : Config) (E : Ext) (xs : List (Int × Int)) :
    ∀ s : CSampleOffsetEst, (xs.length : Int) ≤ s.iInitCnt →
      (AddTimeStampIdxSeq cfg E s xs).dSamRateEst = s.dSamRateEst ∧
      (AddTimeStampIdxSeq cfg E s xs).iInitCnt = s.iInitCnt - (xs.length : Int) := by
  induction xs with
  | nil =>
    intro s _
    exact ⟨rfl, by simp [AddTimeStampIdxSeq]⟩
  | cons x xs ih =>
    intro s hlen
    simp only [List.length_cons] at hlen
    push_cast at hlen
    obtain ⟨_, _, _, _, hcnt, hest⟩ := CSampleOffsetEst.AddTimeStampIdx_fields cfg E s x.1 x.2
    have hpos : 0 < s.iInitCnt := by
      have : (0 : Int) ≤ (xs.length : Int) := Int.ofNat_nonneg _
      omega
    rw [if_pos hpos] at hcnt hest
    obtain ⟨a, b⟩ := ih (s.AddTimeStampIdx cfg E x.1 x.2) (by rw [hcnt]; omega)
    have hunf : AddTimeStampIdxSeq cfg E s (x :: xs)
        = AddTimeStampIdxSeq cfg E (s.AddTimeStampIdx cfg E x.1 x.2) xs := rfl
    rw [hunf, a, b, hest, hcnt]
    refine ⟨rfl, ?_⟩
    simp only [List.length_cons]
    push_cast
    omega

/-- C14: after `Init`, whatever time stamps and clock readings are supplied, the
estimate equals the nominal `SAMPLE_RATE` after each of the first
`VEC_LEN_SAM_OFFS_EST + 1` calls of `AddTimeStampIdx`; call number
`VEC_LEN_SAM_OFFS_EST + 2` is the first to overwrite it, with the regression
value of the window it has just updated. -/
theorem warm_up (cfg : Config) (E : Ext) (now0 : Int) :
    (∀ xs : List (Int × Int), xs.length ≤ cfg.VEC_LEN_SAM_OFFS_EST + 1 →
      (AddTimeStampIdxSeq cfg E (CSampleOffsetEst.Init cfg now0) xs).dSamRateEst
        = some (cfg.SAMPLE_RATE : ℚ)) ∧
    (∀ (xs : List (Int × Int)) (x : Int × Int), xs.length = cfg.VEC_LEN_SAM_OFFS_EST + 1 →
      (AddTimeStampIdxSeq cfg E (CSampleOffsetEst.Init cfg now0) (xs ++ [x])).dSamRateEst
        = regressionEst cfg
            (AddTimeStampIdxSeq cfg E (CSampleOffsetEst.Init cfg now0)
              (xs ++ [x])).veciTimeElapsed
            (AddTimeStampIdxSeq cfg E (CSampleOffsetEst.Init cfg now0)
              (xs ++ [x])).veciTiStIdx) := by
  have hinit : (CSampleOffsetEst.Init cfg now0).iInitCnt
      = (cfg.VEC_LEN_SAM_OFFS_EST : Int) + 1 := rfl
  constructor
  · intro xs hlen
    have := (AddTimeStampIdxSeq_warm cfg E xs (CSampleOffsetEst.Init cfg now0)
      (by rw [hinit]; omega)).1
    rw [this]; rfl
  · intro xs x hlen
    have hcnt := (AddTimeStampIdxSeq_warm cfg E xs (CSampleOffsetEst.Init cfg now0)
      (by rw [hinit]; omega)).2
    rw [hinit, hlen] at hcnt
    have e1 : AddTimeStampIdxSeq cfg E (CSampleOffsetEst.Init cfg now0) (xs ++ [x])
        = (AddTimeStampIdxSeq cfg E (CSampleOffsetEst.Init cfg now0) xs).AddTimeStampIdx
            cfg E x.1 x.2 := by
      rw [AddTimeStampIdxSeq_append]; rfl
    rw [e1]
    have hest := (CSampleOffsetEst.AddTimeStampIdx_fields cfg E
      (AddTimeStampIdxSeq cfg E (CSampleOffsetEst.Init cfg now0) xs) x.1 x.2).2.2.2.2.2
    rw [if_neg (by rw [hcnt]; push_cast; omega)] at hest
    exact hest

/-- Witness for C14 on the small configuration (window 3): after four calls the
estimate is still the nominal rate. -/
theorem warm_up_witness :
    ([(254, 10), (255, 20), (0, 30), (1, 40)] : List (Int × Int)).length
      ≤ smallCfg.VEC_LEN_SAM_OFFS_EST + 1 ∧
    (AddTimeStampIdxSeq smallCfg fifoExt (CSampleOffsetEst.Init smallCfg 0)
        [(254, 10), (255, 20), (0, 30), (1, 40)]).dSamRateEst
      = some (smallCfg.SAMPLE_RATE : ℚ) :=
  ⟨by decide,
   (warm_up smallCfg fifoExt 0).1 [(254, 10), (255, 20), (0, 30), (1, 40)] (by decide)⟩

/-! ## The regression as sums -/

theorem foldl_add_eq_sum (f : Nat → ℚ) (n : Nat) :
    (List.range n).foldl (fun a i => a + f i) 0 = ∑ i in Finset.range n, f i := by
  induction n with
  | zero => simp
  | succ m ih =>
    rw [List.range_succ, List.foldl_append, ih, Finset.sum_range_succ]
    rfl

/-- Numerator and denominator of the gradient, written with sums. -/
theorem regression_eq_sum (n : Nat) (ts ys : List Int) :
    regression n ts ys =
      (∑ i in Finset.range n,
          (((ts.getD i 0 : Int) : ℚ) - (∑ k in Finset.range n, ((ts.getD k 0 : Int) : ℚ)) / n)
          * (((ys.getD i 0 : Int) : ℚ) - (∑ k in Finset.range n, ((ys.getD k 0 : Int) : ℚ)) / n),
       ∑ i in Finset.range n,
          (((ts.getD i 0 : Int) : ℚ) - (∑ k in Finset.range n, ((ts.getD k 0 : Int) : ℚ)) / n)
          * (((ts.getD i 0 : Int) : ℚ) - (∑ k in Finset.range n, ((ts.getD k 0 : Int) : ℚ)) / n)) := by
  unfold regression
  simp only [foldl_add_eq_sum]

/-- If all times of the window coincide, the denominator of the gradient is 0. -/
theorem regression_degenerate (n : Nat) (ts ys : List Int) (c : Int)
    (hall : ∀ i, i < n → ts.getD i 0 = c) : (regression n ts ys).2 = 0 := by
  rw [regression_eq_sum]
  simp only
  have hsum : ∑ k in Finset.range n, ((ts.getD k 0 : Int) : ℚ) = n * (c : ℚ) := by
    rw [Finset.sum_congr rfl (fun k hk => by rw [hall k (Finset.mem_range.1 hk)])]
    simp
  apply Finset.sum_eq_zero
  intro i hi
  have hi' := Finset.mem_range.1 hi
  have hn : (n : ℚ) ≠ 0 := by
    have : n ≠ 0 := by omega
    exact_mod_cast this
  rw [hsum, hall i hi', mul_div_cancel_left₀ _ hn]
  simp

theorem regressionEst_degenerate (cfg : Config) (ts ys : List Int) (c : Int)
    (hall : ∀ i, i < cfg.VEC_LEN_SAM_OFFS_EST → ts.getD i 0 = c) :
    regressionEst cfg ts ys = none := by
  unfold regressionEst ddiv
  rw [if_pos (regression_degenerate _ ts ys c hall)]
  rfl

/-- If the window lies on a line `index = a + time / d` and holds two different
times, the gradient is `1 / d`. -/
theorem regression_line (n : Nat) (ts ys : List Int) (d a : ℚ) (hd : d ≠ 0)
    (hline : ∀ i, i < n → ((ys.getD i 0 : Int) : ℚ) = a + ((ts.getD i 0 : Int) : ℚ) / d)
    (hne : ∃ i j, i < n ∧ j < n ∧ ts.getD i 0 ≠ ts.getD j 0) :
    ddiv (regression n ts ys).1 (regression n ts ys).2 = some (1 / d) := by
  obtain ⟨i0, j0, hi0, hj0, hij⟩ := hne
  have hn : (n : ℚ) ≠ 0 := by
    have : n ≠ 0 := by omega
    exact_mod_cast this
  rw [regression_eq_sum]
  simp only
  set tb : ℚ := (∑ k in Finset.range n, ((ts.getD k 0 : Int) : ℚ)) / n with htb
  have hyb : (∑ k in Finset.range n, ((ys.getD k 0 : Int) : ℚ)) / n = a + tb / d := by
    rw [Finset.sum_congr rfl (fun k hk => hline k (Finset.mem_range.1 hk)),
      Finset.sum_add_distrib, ← Finset.sum_div, htb]
    simp only [Finset.sum_const, Finset.card_range, nsmul_eq_mul]
    field_simp
    ring
  have hnom : ∑ i in Finset.range n, (((ts.getD i 0 : Int) : ℚ) - tb)
        * (((ys.getD i 0 : Int) : ℚ) - (∑ k in Finset.range n, ((ys.getD k 0 : Int) : ℚ)) / n)
      = (∑ i in Finset.range n, (((ts.getD i 0 : Int) : ℚ) - tb)
          * (((ts.getD i 0 : Int) : ℚ) - tb)) / d := by
    rw [eq_div_iff hd, Finset.sum_mul]
    refine Finset.sum_congr rfl (fun i hi => ?_)
    rw [hyb, hline i (Finset.mem_range.1 hi)]
    field_simp
  have hden : ∑ i in Finset.range n, (((ts.getD i 0 : Int) : ℚ) - tb)
        * (((ts.getD i 0 : Int) : ℚ) - tb) ≠ 0 := by
    intro hzero
    have hall := (Finset.sum_eq_zero_iff_of_nonneg
      (fun i _ => mul_self_nonneg (((ts.getD i 0 : Int) : ℚ) - tb))).1 hzero
    have h1 := hall i0 (Finset.mem_range.2 hi0)
    have h2 := hall j0 (Finset.mem_range.2 hj0)
    have e1 : ((ts.getD i0 0 : Int) : ℚ) = tb := by
      have := mul_self_eq_zero.1 h1
      linarith
    have e2 : ((ts.getD j0 0 : Int) : ℚ) = tb := by
      have := mul_self_eq_zero.1 h2
      linarith
    exact hij (by exact_mod_cast e1.trans e2.symm)
  rw [hnom]
  unfold ddiv
  rw [if_neg hden]
  congr 1
  rw [div_right_comm, div_self hden]

/-! ## C15: exactness of the regression on a line -/

theorem nominal_rate (nb bs sr d : ℚ) (hd : 0 < d) (hnom : d = nb * bs * 1000 / sr) :
    1 / d * nb * bs * 1000 = sr := by
  have hsr : sr ≠ 0 := by
    intro h
    rw [h, div_zero] at hnom
    exact absurd hnom (ne_of_gt hd)
  have hp : nb * bs * 1000 ≠ 0 := by
    intro h
    rw [h, zero_div] at hnom
    exact absurd hnom (ne_of_gt hd)
  rw [hnom]
  field_simp
  ring

/-- C15: once warm-up has elapsed (the warm-up counter is 0 before the call),
over exact rational arithmetic: if the window left by `AddTimeStampIdx` lies on
a line on which the accumulated index advances by 1 per `d > 0` milliseconds
and holds two different times, the published estimate is
`1 / d * NUM_BL_TIME_STAMPS * BLOCK_SIZE_SAMPLES * 1000`; this is the case in
particular when the window has at least 2 entries and successive entries are
`d` milliseconds and one index apart; and the value is `SAMPLE_RATE` when
`d = NUM_BL_TIME_STAMPS * BLOCK_SIZE_SAMPLES * 1000 / SAMPLE_RATE`. -/
theorem regression_exact (cfg : Config) (E : Ext) (s : CSampleOffsetEst) (r now : Int)
    (d : ℚ) (hd : 0 < d) (hwarm : ¬ 0 < s.iInitCnt) :
    ((∃ a : ℚ, ∀ j, j < cfg.VEC_LEN_SAM_OFFS_EST →
        (((s.AddTimeStampIdx cfg E r now).veciTiStIdx.getD j 0 : Int) : ℚ)
          = a + (((s.AddTimeStampIdx cfg E r now).veciTimeElapsed.getD j 0 : Int) : ℚ) / d) →
      (∃ i j, i < cfg.VEC_LEN_SAM_OFFS_EST ∧ j < cfg.VEC_LEN_SAM_OFFS_EST ∧
        (s.AddTimeStampIdx cfg E r now).veciTimeElapsed.getD i 0
          ≠ (s.AddTimeStampIdx cfg E r now).veciTimeElapsed.getD j 0) →
      (s.AddTimeStampIdx cfg E r now).dSamRateEst
        = some (1 / d * (cfg.NUM_BL_TIME_STAMPS : ℚ) * (cfg.BLOCK_SIZE_SAMPLES : ℚ) * 1000)) ∧
    (2 ≤ cfg.VEC_LEN_SAM_OFFS_EST →
      (∃ t0 i0 : ℚ, ∀ j, j < cfg.VEC_LEN_SAM_OFFS_EST →
        (((s.AddTimeStampIdx cfg E r now).veciTimeElapsed.getD j 0 : Int) : ℚ) = t0 + j * d ∧
        (((s.AddTimeStampIdx cfg E r now).veciTiStIdx.getD j 0 : Int) : ℚ) = i0 + j) →
      (s.AddTimeStampIdx cfg E r now).dSamRateEst
        = some (1 / d * (cfg.NUM_BL_TIME_STAMPS : ℚ) * (cfg.BLOCK_SIZE_SAMPLES : ℚ) * 1000) ∧
      (d = (cfg.NUM_BL_TIME_STAMPS : ℚ) * (cfg.BLOCK_SIZE_SAMPLES : ℚ) * 1000
            / (cfg.SAMPLE_RATE : ℚ) →
        (s.AddTimeStampIdx cfg E r now).dSamRateEst = some (cfg.SAMPLE_RATE : ℚ))) := by
  have hest := (CSampleOffsetEst.AddTimeStampIdx_fields cfg E s r now).2.2.2.2.2
  rw [if_neg hwarm] at hest
  have hd0 : d ≠ 0 := ne_of_gt hd
  have key : (∃ a : ℚ, ∀ j, j < cfg.VEC_LEN_SAM_OFFS_EST →
        (((s.AddTimeStampIdx cfg E r now).veciTiStIdx.getD j 0 : Int) : ℚ)
          = a + (((s.AddTimeStampIdx cfg E r now).veciTimeElapsed.getD j 0 : Int) : ℚ) / d) →
      (∃ i j, i < cfg.VEC_LEN_SAM_OFFS_EST ∧ j < cfg.VEC_LEN_SAM_OFFS_EST ∧
        (s.AddTimeStampIdx cfg E r now).veciTimeElapsed.getD i 0
          ≠ (s.AddTimeStampIdx cfg E r now).veciTimeElapsed.getD j 0) →
      (s.AddTimeStampIdx cfg E r now).dSamRateEst
        = some (1 / d * (cfg.NUM_BL_TIME_STAMPS : ℚ) * (cfg.BLOCK_SIZE_SAMPLES : ℚ) * 1000) := by
    rintro ⟨a, hline⟩ hne
    rw [hest]
    unfold regressionEst
    rw [regression_line _ _ _ d a hd0 hline hne]
    rfl
  refine ⟨key, ?_⟩
  intro hn hex
  obtain ⟨t0, i0, hcons⟩ := hex
  have hval := key ⟨i0 - t0 / d, fun j hj => by
      rw [(hcons j hj).1, (hcons j hj).2]
      field_simp
      ring⟩
    ⟨0, 1, by omega, by omega, by
      intro heq
      have h0 := (hcons 0 (by omega)).1
      have h1 := (hcons 1 (by omega)).1
      rw [heq, h1] at h0
      have : d = 0 := by
        have h2 : t0 + ((1 : Nat) : ℚ) * d = t0 + ((0 : Nat) : ℚ) * d := h0
        push_cast at h2
        linarith
      exact hd0 this⟩
  refine ⟨hval, ?_⟩
  intro hnom
  rw [hval, nominal_rate _ _ _ d hd hnom]

/-- Witness for C15 on the small configuration: after warm-up, a window with
the times 30, 40, 50 and the indices 256, 257, 258 gives the estimate
`1 / 10 * 3 * 4 * 1000`. -/
theorem regression_exact_witness :
    ¬ 0 < warmEst.iInitCnt ∧
    (warmEst.AddTimeStampIdx smallCfg fifoExt 2 50).veciTimeElapsed = [30, 40, 50] ∧
    (warmEst.AddTimeStampIdx smallCfg fifoExt 2 50).veciTiStIdx = [256, 257, 258] ∧
    (warmEst.AddTimeStampIdx smallCfg fifoExt 2 50).dSamRateEst
      = some (1 / (10 : ℚ) * (smallCfg.NUM_BL_TIME_STAMPS : ℚ)
          * (smallCfg.BLOCK_SIZE_SAMPLES : ℚ) * 1000) :=
  have ht : (warmEst.AddTimeStampIdx smallCfg fifoExt 2 50).veciTimeElapsed = [30, 40, 50] := by
    decide
  have hi : (warmEst.AddTimeStampIdx smallCfg fifoExt 2 50).veciTiStIdx = [256, 257, 258] := by
    decide
  ⟨by decide, ht, hi,
   ((regression_exact smallCfg fifoExt warmEst 2 50 10 (by norm_num) (by decide)).2
      (by decide)
      ⟨30, 256, fun j hj => by
        rw [ht, hi]
        have hj3 : j < 3 := hj
        interval_cases j <;> norm_num⟩).1⟩

/-! ## C16: a window of identical times -/

/-- C16, as stated, fails: the estimator `stalledEst` is past warm-up with the
estimate at the nominal rate; a further time stamp at the same instant 30
leaves the window with three identical times, the denominator is 0, and the
estimate is overwritten by the result of the division by zero instead of
being kept. -/
theorem AddTimeStampIdx_divides_by_zero :
    ¬ 0 < stalledEst.iInitCnt ∧
    (stalledEst.AddTimeStampIdx smallCfg fifoExt 2 30).veciTimeElapsed = [30, 30, 30] ∧
    (regression smallCfg.VEC_LEN_SAM_OFFS_EST
      (stalledEst.AddTimeStampIdx smallCfg fifoExt 2 30).veciTimeElapsed
      (stalledEst.AddTimeStampIdx smallCfg fifoExt 2 30).veciTiStIdx).2 = 0 ∧
    stalledEst.dSamRateEst = some (smallCfg.SAMPLE_RATE : ℚ) ∧
    (stalledEst.AddTimeStampIdx smallCfg fifoExt 2 30).dSamRateEst = none ∧
    (stalledEst.AddTimeStampIdx smallCfg fifoExt 2 30).dSamRateEst ≠ stalledEst.dSamRateEst := by
  have hw : ¬ 0 < stalledEst.iInitCnt := by decide
  have ht : (stalledEst.AddTimeStampIdx smallCfg fifoExt 2 30).veciTimeElapsed
      = [30, 30, 30] := by decide
  have hall : ∀ i, i < smallCfg.VEC_LEN_SAM_OFFS_EST →
      (stalledEst.AddTimeStampIdx smallCfg fifoExt 2 30).veciTimeElapsed.getD i 0 = 30 := by
    rw [ht]; decide
  have hprev : stalledEst.dSamRateEst = some (smallCfg.SAMPLE_RATE : ℚ) :=
    (AddTimeStampIdxSeq_warm smallCfg fifoExt [(254, 10), (255, 20), (0, 30), (1, 30)]
      (CSampleOffsetEst.Init smallCfg 0) (by decide)).1
  have hest := (CSampleOffsetEst.AddTimeStampIdx_fields smallCfg fifoExt stalledEst
    2 30).2.2.2.2.2
  rw [if_neg hw, regressionEst_degenerate smallCfg _ _ 30 hall] at hest
  refine ⟨hw, ht, regression_degenerate _ _ _ 30 hall, hprev, hest, ?_⟩
  rw [hest, hprev]
  exact fun h => Option.noConfusion h

/-- C16 amended: `AddTimeStampIdx` has no guard.  For every estimator state
past warm-up (warm-up counter 0 before the call) in which all elapsed-time
samples of the window, the new one included, are identical, the regression
denominator is 0, the division by it is carried out, and the previous estimate
is overwritten by its undefined result (`none` here, a non-finite `double` in
the program). -/
theorem AddTimeStampIdx_no_guard (cfg : Config) (E : Ext) (s : CSampleOffsetEst)
    (r now c : Int) (hwarm : ¬ 0 < s.iInitCnt)
    (hall : ∀ i, i < cfg.VEC_LEN_SAM_OFFS_EST →
      (s.AddTimeStampIdx cfg E r now).veciTimeElapsed.getD i 0 = c) :
    (regression cfg.VEC_LEN_SAM_OFFS_EST (s.AddTimeStampIdx cfg E r now).veciTimeElapsed
      (s.AddTimeStampIdx cfg E r now).veciTiStIdx).2 = 0 ∧
    (s.AddTimeStampIdx cfg E r now).dSamRateEst = none := by
  have hest := (CSampleOffsetEst.AddTimeStampIdx_fields cfg E s r now).2.2.2.2.2
  rw [if_neg hwarm, regressionEst_degenerate cfg _ _ c hall] at hest
  exact ⟨regression_degenerate _ _ _ c hall, hest⟩

/-- Witness for the amended C16: the stalled estimator, fed once more at the
instant 30, ends with no estimate. -/
theorem AddTimeStampIdx_no_guard_witness :
    ¬ 0 < stalledEst.iInitCnt ∧
    (∀ i, i < smallCfg.VEC_LEN_SAM_OFFS_EST →
      (stalledEst.AddTimeStampIdx smallCfg fifoExt 2 30).veciTimeElapsed.getD i 0 = 30) ∧
    (stalledEst.AddTimeStampIdx smallCfg fifoExt 2 30).dSamRateEst = none :=
  ⟨by decide, by decide,
   (AddTimeStampIdx_no_guard smallCfg fifoExt stalledEst 2 30 30 (by decide) (by decide)).2⟩

/-! ## C17: one `GetData` call -/

theorem CChannel.GetData_ret (cfg : Config) {E : Ext} (c : CChannel E) (d : List ℚ)
    (now : Int) :
    (c.GetData cfg d now).1 = (E.sockGet c.SockBuf d).1 ∧
    (c.GetData cfg d now).2.1 = (E.sockGet c.SockBuf d).2.1 ∧
    (c.GetData cfg d now).2.2.SockBuf = (E.sockGet c.SockBuf d).2.2 := by
  unfold CChannel.GetData
  simp only
  split_ifs
  all_goals exact ⟨rfl, rfl, rfl⟩

/-- C17: `CChannel::GetData` returns the jitter buffer's `Get` result and keeps
its frame and new buffer state.  If `Get` succeeds, time-out and estimator are
unchanged.  If it underruns with a positive time-out, the time-out decreases by
exactly 1, and the estimator is re-initialised if the new time-out is 0 and
unchanged otherwise.  If it underruns with a time-out that is not positive
(so 0), time-out and estimator are unchanged. -/
theorem CChannel.GetData_step (cfg : Config) (E : Ext) (c : CChannel E) (d : List ℚ)
    (now : Int) :
    (c.GetData cfg d now).1 = (E.sockGet c.SockBuf d).1 ∧
    (c.GetData cfg d now).2.1 = (E.sockGet c.SockBuf d).2.1 ∧
    (c.GetData cfg d now).2.2.SockBuf = (E.sockGet c.SockBuf d).2.2 ∧
    ((E.sockGet c.SockBuf d).1 = true →
      (c.GetData cfg d now).2.2.iConTimeOut = c.iConTimeOut ∧
      (c.GetData cfg d now).2.2.SampleOffsetEst = c.SampleOffsetEst) ∧
    ((E.sockGet c.SockBuf d).1 = false → 0 < c.iConTimeOut →
      (c.GetData cfg d now).2.2.iConTimeOut = c.iConTimeOut - 1 ∧
      ((c.GetData cfg d now).2.2.iConTimeOut = 0 →
        (c.GetData cfg d now).2.2.SampleOffsetEst = CSampleOffsetEst.Init cfg now) ∧
      ((c.GetData cfg d now).2.2.iConTimeOut ≠ 0 →
        (c.GetData cfg d now).2.2.SampleOffsetEst = c.SampleOffsetEst)) ∧
    ((E.sockGet c.SockBuf d).1 = false → ¬ 0 < c.iConTimeOut →
      (c.GetData cfg d now).2.2.iConTimeOut = c.iConTimeOut ∧
      (c.GetData cfg d now).2.2.SampleOffsetEst = c.SampleOffsetEst) := by
  obtain ⟨r1, r2, r3⟩ := CChannel.GetData_ret cfg c d now
  have ht := CChannel.GetData_iConTimeOut cfg c d now
  have he := CChannel.GetData_SampleOffsetEst cfg c d now
  refine ⟨r1, r2, r3, ?_, ?_, ?_⟩
  · intro hok
    rw [ht, he, if_neg (by simp [hok]), if_neg (by simp [hok])]
    exact ⟨rfl, rfl⟩
  · intro hun hpos
    rw [ht, if_pos ⟨hun, hpos⟩]
    refine ⟨rfl, ?_, ?_⟩
    · intro h0
      rw [he, if_pos ⟨hun, hpos, h0⟩]
    · intro h0
      rw [he, if_neg (fun h => h0 h.2.2)]
  · intro hun hnp
    rw [ht, he, if_neg (fun h => hnp h.2), if_neg (fun h => hnp h.2.1)]
    exact ⟨rfl, rfl⟩

/-- Witness for C17: the drained channel (time-out 2, empty jitter buffer)
underruns and its time-out drops to 1. -/
theorem CChannel.GetData_step_witness :
    (fifoExt.sockGet drainedClient.SockBuf []).1 = false ∧ 0 < drainedClient.iConTimeOut ∧
    (drainedClient.GetData smallCfg [] 0).2.2.iConTimeOut = drainedClient.iConTimeOut - 1 :=
  ⟨by decide, by decide,
   ((CChannel.GetData_step smallCfg fifoExt drainedClient [] 0).2.2.2.2.1
      (by decide) (by decide)).1⟩

/-! ## C18: the step-size index stays in the table -/

theorem CheckBounds_mem (x lo hi : Int) (h : lo ≤ hi) :
    lo ≤ CheckBounds x lo hi ∧ CheckBounds x lo hi ≤ hi := by
  unfold CheckBounds
  split_ifs <;> omega

/-- C18: for every step-size index `i` in `[0, 88]` and every 4-bit code `c` in
`[0, 15]`, `CheckBounds (i + ima_indx_adjust[c], 0, 88)` lies in `[0, 88]` and
so is the index of an entry of `ima_step_size`, which has
`IMA_STEP_SIZE_TAB_LEN` = 89 entries (`ima_indx_adjust` has 16); in general
`CheckBounds (x, lo, hi)` with `lo ≤ hi` lies in `[lo, hi]`, and it is `x` when
`x` already lies in `[lo, hi]`. -/
theorem CheckBounds_step_index :
    (∀ (i : Int) (c : Nat), 0 ≤ i → i ≤ 88 → c ≤ 15 →
      0 ≤ CheckBounds (i + ima_indx_adjust.getD c 0) 0 88 ∧
      CheckBounds (i + ima_indx_adjust.getD c 0) 0 88 ≤ 88 ∧
      (CheckBounds (i + ima_indx_adjust.getD c 0) 0 88).toNat < ima_step_size.length) ∧
    ima_step_size.length = IMA_STEP_SIZE_TAB_LEN ∧ IMA_STEP_SIZE_TAB_LEN = 89 ∧
    ima_indx_adjust.length = 16 ∧
    (∀ x lo hi : Int, lo ≤ hi → lo ≤ CheckBounds x lo hi ∧ CheckBounds x lo hi ≤ hi) ∧
    (∀ x lo hi : Int, lo ≤ x → x ≤ hi → CheckBounds x lo hi = x) := by
  have hlen : ima_step_size.length = 89 := by decide
  refine ⟨?_, hlen, rfl, by decide, CheckBounds_mem, ?_⟩
  · intro i c _ _ _
    obtain ⟨h1, h2⟩ := CheckBounds_mem (i + ima_indx_adjust.getD c 0) 0 88 (by decide)
    refine ⟨h1, h2, ?_⟩
    rw [hlen]
    omega
  · intro x lo hi h1 h2
    unfold CheckBounds
    rw [if_neg (by omega), if_neg (by omega)]

/-- Witness for C18: from index 88 the code 7 (adjustment +8) is clamped back
to 88, and from index 0 the code 0 (adjustment -1) is clamped back to 0. -/
theorem CheckBounds_step_index_witness :
    CheckBounds (88 + ima_indx_adjust.getD 7 0) 0 88 = 88 ∧
    CheckBounds (0 + ima_indx_adjust.getD 0 0) 0 88 = 0 ∧
    0 ≤ CheckBounds (88 + ima_indx_adjust.getD 7 0) 0 88 ∧
    CheckBounds (88 + ima_indx_adjust.getD 7 0) 0 88 ≤ 88 :=
  have h := CheckBounds_step_index.1 88 7 (by decide) (by decide) (by decide)
  ⟨by decide, by decide, h.1, h.2.1⟩

/-! ## C19: `CChannelSet::PutData` touches one slot -/

/-- The table after `CChannelSet::PutData`, by the outcome of the two scans. -/
theorem PutData_table (cfg : Config) {E : Ext} (v : CChannelSet E) (buf : List Nat) (n : Int)
    (A : E.CHostAddress) (now : Int) :
    (CheckAddr cfg v A ≠ cfg.INVALID_CHANNEL_ID →
      (PutData cfg v buf n A now).vecChannels
        = Function.update v (CheckAddr cfg v A).toNat
            ((v (CheckAddr cfg v A).toNat).PutData cfg buf n now).2) ∧
    (CheckAddr cfg v A = cfg.INVALID_CHANNEL_ID → GetFreeChan cfg v ≠ cfg.INVALID_CHANNEL_ID →
      (PutData cfg v buf n A now).vecChannels
        = Function.update v (GetFreeChan cfg v).toNat
            (((v (GetFreeChan cfg v).toNat).SetAddress A).PutData cfg buf n now).2) ∧
    (CheckAddr cfg v A = cfg.INVALID_CHANNEL_ID → GetFreeChan cfg v = cfg.INVALID_CHANNEL_ID →
      (PutData cfg v buf n A now).vecChannels = v) := by
  refine ⟨?_, ?_, ?_⟩
  · intro hc
    unfold PutData
    simp [hc]
  · intro hc hg
    unfold PutData
    simp [hc, hg]
  · intro hc hg
    unfold PutData
    simp [hc, hg]

/-- C19: `CChannelSet::PutData` changes at most one slot: the slot returned by
`CheckAddr` if that is not the sentinel, otherwise the slot returned by
`GetFreeChan` if that is not the sentinel, otherwise none; every other slot is
left exactly as it was.  In particular a connected slot bound to an address
other than the sender's is never changed. -/
theorem PutData_frame (cfg : Config) (E : Ext) (v : CChannelSet E) (buf : List Nat) (n : Int)
    (A : E.CHostAddress) (now : Int) :
    (CheckAddr cfg v A ≠ cfg.INVALID_CHANNEL_ID →
      ∀ i, i ≠ (CheckAddr cfg v A).toNat → (PutData cfg v buf n A now).vecChannels i = v i) ∧
    (CheckAddr cfg v A = cfg.INVALID_CHANNEL_ID → GetFreeChan cfg v ≠ cfg.INVALID_CHANNEL_ID →
      ∀ i, i ≠ (GetFreeChan cfg v).toNat → (PutData cfg v buf n A now).vecChannels i = v i) ∧
    (CheckAddr cfg v A = cfg.INVALID_CHANNEL_ID → GetFreeChan cfg v = cfg.INVALID_CHANNEL_ID →
      (PutData cfg v buf n A now).vecChannels = v) ∧
    (∀ i, i < cfg.MAX_NUM_CHANNELS → (v i).IsConnected = true → (v i).InetAddr ≠ A →
      (PutData cfg v buf n A now).vecChannels i = v i) := by
  obtain ⟨t1, t2, t3⟩ := PutData_table cfg v buf n A now
  refine ⟨?_, ?_, t3, ?_⟩
  · intro hc i hi
    rw [t1 hc, Function.update_noteq hi]
  · intro hc hg i hi
    rw [t2 hc hg, Function.update_noteq hi]
  · intro i hi hcon haddr
    by_cases hc : CheckAddr cfg v A = cfg.INVALID_CHANNEL_ID
    · by_cases hg : GetFreeChan cfg v = cfg.INVALID_CHANNEL_ID
      · rw [t3 hc hg]
      · rw [t2 hc hg]
        rcases GetFreeChan_cases cfg v with ⟨f, _, hff, _, hfr⟩ | ⟨_, hfull⟩
        · have hif : i ≠ (GetFreeChan cfg v).toNat := by
            rw [hfr, Int.toNat_ofNat]
            intro h
            rw [h, hff] at hcon
            exact absurd hcon (by simp)
          rw [Function.update_noteq hif]
        · exact absurd hfull hg
    · rw [t1 hc]
      rcases CheckAddr_cases cfg v A with ⟨j, _, _, hja, _, hjr⟩ | ⟨_, hr⟩
      · have hij : i ≠ (CheckAddr cfg v A).toNat := by
          rw [hjr, Int.toNat_ofNat]
          intro h
          rw [h] at haddr
          exact haddr hja
        rw [Function.update_noteq hij]
      · exact absurd hr hc

/-- Witness for C19: an audio frame from address 8 to the table with client 7
on slot 0 leaves slot 0 as it was. -/
theorem PutData_frame_witness :
    (oneClient 0).IsConnected = true ∧ (oneClient 0).InetAddr ≠ (8 : Nat) ∧
    (PutData smallCfg oneClient [1, 2, 3, 4, 5] 5 (8 : Nat) 0).vecChannels 0 = oneClient 0 :=
  ⟨by decide, by show (7 : Nat) ≠ 8; decide,
   (PutData_frame smallCfg fifoExt oneClient [1, 2, 3, 4, 5] 5 (8 : Nat) 0).2.2.2 0
      (by decide) (by decide) (by show (7 : Nat) ≠ 8; decide)⟩

/-! ## C20: the range of the time-out counter -/

/-- C20: if `CON_TIME_OUT_CNT_MAX` is not negative, then in every channel state
reachable from the constructor by `PutData`, `GetData`, `SetSockBufSize`,
`PrepSendPacket` and `GetTimeStampIdx` calls the time-out counter lies between 0
and `CON_TIME_OUT_CNT_MAX`; so the channel is connected exactly when the
counter is positive and disconnected exactly when it is 0. -/
theorem time_out_range (cfg : Config) (E : Ext) (c : CChannel E)
    (hT : 0 ≤ cfg.CON_TIME_OUT_CNT_MAX) (hr : ChannelReachable cfg E c) :
    0 ≤ c.iConTimeOut ∧ c.iConTimeOut ≤ cfg.CON_TIME_OUT_CNT_MAX ∧
    (c.IsConnected = true ↔ 0 < c.iConTimeOut) ∧
    (c.IsConnected = false ↔ c.iConTimeOut = 0) := by
  have hrange : 0 ≤ c.iConTimeOut ∧ c.iConTimeOut ≤ cfg.CON_TIME_OUT_CNT_MAX := by
    induction hr with
    | new now => exact ⟨le_refl 0, hT⟩
    | putData buf n now _ ih =>
      rw [CChannel.PutData_iConTimeOut]
      split_ifs
      · exact ⟨hT, le_refl _⟩
      · exact ih
    | getData d now _ ih =>
      rw [CChannel.GetData_iConTimeOut]
      split_ifs with h
      · omega
      · exact ih
    | setSockBufSize a b _ ih => exact ih
    | prepSendPacket x _ ih =>
      unfold CChannel.PrepSendPacket
      simp only
      split_ifs
      · exact ih
      · exact ih
    | getTimeStampIdx _ ih =>
      unfold CChannel.GetTimeStampIdx
      split_ifs
      · exact ih
      · exact ih
  refine ⟨hrange.1, hrange.2, ?_, ?_⟩
  · unfold CChannel.IsConnected
    simp
  · unfold CChannel.IsConnected
    simp only [decide_eq_false_iff_not]
    omega

/-- Witness for C20: a fresh channel that received one audio frame and then
underran three times is reachable; its time-out is 0, not negative. -/
theorem time_out_range_witness :
    0 ≤ smallCfg.CON_TIME_OUT_CNT_MAX ∧
    (GetDataN smallCfg (fun _ => 0) [] 4
      ((CChannel.new smallCfg fifoExt 0).PutData smallCfg [0, 0, 0, 0, 0] 5 0).2).iConTimeOut = 0 ∧
    0 ≤ (GetDataN smallCfg (fun _ => 0) [] 4
      ((CChannel.new smallCfg fifoExt 0).PutData smallCfg [0, 0, 0, 0, 0] 5 0).2).iConTimeOut :=
  ⟨by decide, by decide,
   (time_out_range smallCfg fifoExt _ (by decide)
      (ChannelReachable.getData _ _ (ChannelReachable.getData _ _
        (ChannelReachable.getData _ _ (ChannelReachable.getData _ _
          (ChannelReachable.putData _ _ _ (ChannelReachable.new _))))))).1⟩

end Jamulus
